import Mathlib

/-! # Postfix log parser (`patterns.go`): a shallow embedding

Go strings are modelled as lists of characters (`Str`); the log is assumed to be
valid UTF-8, so that the byte-oriented library routines used by the parser
(`strings.Contains`, `strings.Split`, `strings.Trim` with ASCII separators and
cut sets) agree with their character-level counterparts below.

A Go run-time panic (index out of range) is modelled by the outcome
`Run.panic`: every slice index of the source is a bounds-checked lookup `idx`.

The wall clock enters only through `time.Now().Year()`, which every extractor
takes as the parameter `year`.  `strconv.ParseInt(s, 0, 0)` is modelled for a
platform whose `int` has 64 bits, `time.Parse` for the one layout the parser
uses (`postfixForm`), and `strconv.ParseFloat` is a parameter of the
local-delivery extractor.
-/

set_option maxRecDepth 20000

namespace Chisel

/-- A Go string, as its sequence of characters. -/
abbrev Str := List Char

/-- Outcome of running Go code that may panic. -/
inductive Run (α : Type) where
  | panic : Run α
  | ok (a : α) : Run α
deriving DecidableEq, Repr

/-- Sequencing: a panic aborts what follows. -/
@[noinline] def Run.bind {α β : Type} (o : Run α) (f : α → Run β) : Run β :=
  match o with
  | .panic => .panic
  | .ok a => f a

instance : Monad Run where
  pure := Run.ok
  bind := Run.bind

/-- Go slice index `xs[i]`: panics when `i` is out of range. -/
def idx {α : Type} (xs : List α) (i : Nat) : Run α :=
  match xs[i]? with
  | some a => .ok a
  | none => .panic

/-! ## The `strings` package -/

/-- The test `hasPrefix p s` is Go `strings.HasPrefix(s, p)`: `s` begins with `p`. -/
def hasPrefix : Str → Str → Bool
  | [], _ => true
  | _ :: _, [] => false
  | p :: ps, c :: cs => p == c && hasPrefix ps cs

/-- Go `strings.Contains(s, sub)`: `sub` occurs somewhere in `s`. -/
def Contains : Str → Str → Bool
  | [], sub => hasPrefix sub []
  | c :: cs, sub => hasPrefix sub (c :: cs) || Contains cs sub

/-- First occurrence of `sep` in `s` (Go `strings.Index`), returned as the text
before it and the text after it. -/
def cut (sep : Str) : Str → Option (Str × Str)
  | [] => if hasPrefix sep [] then some ([], []) else none
  | c :: cs =>
    if hasPrefix sep (c :: cs) then some ([], (c :: cs).drop sep.length)
    else (cut sep cs).map (fun r => (c :: r.1, r.2))

/-- Go `genSplit(s, sep, 0, n)` for a non-empty separator and `n ≥ 0`: at most
`n` pieces, the last one being the unsplit remainder. -/
def genSplit (sep : Str) : Nat → Str → List Str
  | 0, _ => []
  | 1, s => [s]
  | n + 2, s =>
    match cut sep s with
    | none => [s]
    | some (a, b) => a :: genSplit sep (n + 1) b

/-- Go `strings.SplitN(s, sep, n)` for `n ≥ 0`.  With an empty separator the
string is exploded into at most `n` pieces. -/
def SplitN (s sep : Str) (n : Nat) : List Str :=
  if sep = [] then
    (if s.length ≤ n then s.map (fun c => [c])
     else (s.take (n - 1)).map (fun c => [c]) ++ (if n = 0 then [] else [s.drop (n - 1)]))
  else genSplit sep n s

/-- Go `strings.Split(s, sep)`, i.e. `genSplit(s, sep, 0, -1)`: the number of
pieces is `Count(s, sep) + 1`, which never exceeds `len(s) + 1`. -/
def Split (s sep : Str) : List Str :=
  if sep = [] then s.map (fun c => [c]) else genSplit sep (s.length + 1) s

/-- Go `unicode.IsSpace`. -/
def isSpace (c : Char) : Bool :=
  let n := c.toNat
  (9 ≤ n && n ≤ 13) || n == 32 || n == 0x85 || n == 0xA0 || n == 0x1680 ||
  (0x2000 ≤ n && n ≤ 0x200a) || n == 0x2028 || n == 0x2029 || n == 0x202f ||
  n == 0x205f || n == 0x3000

/-- Scanning loop of `strings.Fields`; `cur` is the field being read, reversed. -/
def fieldsAux : Str → Str → List Str
  | [], cur => if cur.isEmpty then [] else [cur.reverse]
  | c :: cs, cur =>
    if isSpace c then
      (if cur.isEmpty then fieldsAux cs [] else cur.reverse :: fieldsAux cs [])
    else fieldsAux cs (c :: cur)

/-- Go `strings.Fields(s)`: the maximal runs of non-space characters. -/
def Fields (s : Str) : List Str := fieldsAux s []

/-- Go `strings.TrimLeft(s, cutset)`. -/
def TrimLeft (s cutset : Str) : Str := s.dropWhile (fun c => cutset.contains c)

/-- Go `strings.TrimRight(s, cutset)`. -/
def TrimRight (s cutset : Str) : Str :=
  (s.reverse.dropWhile (fun c => cutset.contains c)).reverse

/-- Go `strings.Trim(s, cutset)`. -/
def Trim (s cutset : Str) : Str := TrimRight (TrimLeft s cutset) cutset

/-- Go `strings.Join(parts, sep)`. -/
def Join (parts : List Str) (sep : Str) : Str := sep.intercalate parts


/-! ## `strconv.ParseInt` -/

/-- Go error values produced by the library calls of the parser. -/
inductive GoError where
  | timeParse   -- `*time.ParseError`
  | numSyntax   -- `strconv.ErrSyntax`
  | numRange    -- `strconv.ErrRange`
deriving DecidableEq, Repr

/-- ASCII decimal digit test (`'0' <= c && c <= '9'`). -/
def isDigit (c : Char) : Bool := 48 ≤ c.toNat && c.toNat ≤ 57

/-- Value of a decimal digit character. -/
def digitVal (c : Char) : Nat := c.toNat - 48

/-- Go `lower(c)` of `strconv`: `c | ('x' - 'X')`. -/
def lower (c : Char) : Nat := c.toNat ||| 0x20

/-- Digit loop of `strconv.ParseUint` when the caller passed base 0 (underscores
are skipped); `cutoff * base > maxUint64`, `maxVal = 2^bitSize - 1`.  Returns the
value and the error, as the Go function does. -/
def parseUintLoop (base cutoff maxVal : Nat) : Str → Nat → Nat × Option GoError
  | [], n => (n, none)
  | c :: cs, n =>
    if c == '_' then parseUintLoop base cutoff maxVal cs n
    else
      let d : Option Nat :=
        if isDigit c then some (digitVal c)
        else if 97 ≤ lower c && lower c ≤ 122 then some (lower c - 97 + 10)
        else none
      match d with
      | none => (0, some .numSyntax)
      | some d =>
        if base ≤ d then (0, some .numSyntax)
        else if cutoff ≤ n then (maxVal, some .numRange)
        else
          let n1 := n * base + d
          if maxVal < n1 then (maxVal, some .numRange)
          else parseUintLoop base cutoff maxVal cs n1

/-- State of `underscoreOK`: the kind of the last character seen. -/
inductive Saw where
  | start | digit | underscore | other
deriving DecidableEq

/-- Scanning loop of `strconv.underscoreOK`. -/
def underscoreLoop (hex : Bool) : Str → Saw → Bool
  | [], saw => saw != .underscore
  | c :: cs, saw =>
    if isDigit c || (hex && 97 ≤ lower c && lower c ≤ 102) then underscoreLoop hex cs .digit
    else if c == '_' then
      (if saw != .digit then false else underscoreLoop hex cs .underscore)
    else if saw == .underscore then false
    else underscoreLoop hex cs .other

/-- Go `strconv.underscoreOK(s)`. -/
def underscoreOK (s : Str) : Bool :=
  let s := match s with
    | c :: cs => if c == '-' || c == '+' then cs else c :: cs
    | [] => []
  match s with
  | c0 :: c1 :: rest =>
    if c0 == '0' && (lower c1 == 98 || lower c1 == 111 || lower c1 == 120) then
      underscoreLoop (lower c1 == 120) rest .digit
    else underscoreLoop false (c0 :: c1 :: rest) .start
  | s => underscoreLoop false s .start

/-- Go `strconv.ParseUint(s, 0, 64)`. -/
def ParseUint (s : Str) : Nat × Option GoError :=
  match s with
  | [] => (0, some .numSyntax)
  | c0 :: rest =>
    let maxVal := 2 ^ 64 - 1
    let bs : Nat × Str :=
      if c0 == '0' then
        match rest with
        | c1 :: c2 :: more =>
          if lower c1 == 98 then (2, c2 :: more)
          else if lower c1 == 111 then (8, c2 :: more)
          else if lower c1 == 120 then (16, c2 :: more)
          else (8, rest)
        | _ => (8, rest)
      else (10, s)
    let r := parseUintLoop bs.1 (maxVal / bs.1 + 1) maxVal bs.2 0
    match r.2 with
    | some e => (r.1, some e)
    | none => if s.contains '_' && !underscoreOK s then (0, some .numSyntax) else (r.1, none)

/-- Go `strconv.ParseInt(s, 0, 0)` on a platform whose `int` has 64 bits. -/
def ParseInt (s : Str) : Int × Option GoError :=
  match s with
  | [] => (0, some .numSyntax)
  | c0 :: rest =>
    let neg := c0 == '-'
    let s1 := if c0 == '+' || c0 == '-' then rest else s
    let r := ParseUint s1
    if r.2 = some .numSyntax then (0, some .numSyntax)
    else
      let cutoff := 2 ^ 63
      if !neg && cutoff ≤ r.1 then ((cutoff : Nat) - 1, some .numRange)
      else if neg && cutoff < r.1 then (-(cutoff : Nat), some .numRange)
      else (if neg then -(r.1 : Int) else (r.1 : Int), none)

/-- A `float64`, by its IEEE-754 bit pattern. -/
structure Float64 where
  bits : Nat
deriving DecidableEq, Repr

/-! ## `time.Parse` with the layout `postfixForm = "Jan 2 15:04:05 2006"` -/

/-- A `time.Time` in UTC, by its civil fields. -/
structure Time where
  year : Nat
  month : Nat
  day : Nat
  hour : Nat
  min : Nat
  sec : Nat
  nsec : Nat
deriving DecidableEq, Repr

/-- The zero `time.Time`: January 1, year 1, 00:00:00 UTC. -/
def Time.zero : Time := ⟨1, 1, 1, 0, 0, 0, 0⟩

instance : Inhabited Time := ⟨Time.zero⟩

/-- Go `time.getnum(s, fixed)`: one or two leading digits (exactly two if `fixed`). -/
def getnum (s : Str) (fixed : Bool) : Option (Nat × Str) :=
  match s with
  | [] => none
  | [a] => if isDigit a then (if fixed then none else some (digitVal a, [])) else none
  | a :: b :: rest =>
    if isDigit a then
      (if isDigit b then some (digitVal a * 10 + digitVal b, rest)
       else if fixed then none else some (digitVal a, b :: rest))
    else none

/-- Go `time.match` on one byte: equality ignoring ASCII case. -/
def matchFold (c1 c2 : Char) : Bool :=
  c1 == c2 || (lower c1 == lower c2 && 97 ≤ lower c1 && lower c1 ≤ 122)

/-- Go `time.shortMonthNames`. -/
def shortMonthNames : List Str :=
  ["Jan".toList, "Feb".toList, "Mar".toList, "Apr".toList, "May".toList, "Jun".toList,
   "Jul".toList, "Aug".toList, "Sep".toList, "Oct".toList, "Nov".toList, "Dec".toList]

/-- Go `time.lookup(tab, val)`, with `i` the index of the head of `tab`. -/
def lookupName : List Str → Nat → Str → Option (Nat × Str)
  | [], _, _ => none
  | v :: tab, i, val =>
    if v.length ≤ val.length && (List.zipWith matchFold (val.take v.length) v).all id then
      some (i, val.drop v.length)
    else lookupName tab (i + 1) val

/-- Go `time.skip(value, " ")`: a space of the layout matches any run of spaces,
and also the end of the value. -/
def skipSpace (value : Str) : Option Str :=
  match value with
  | [] => some []
  | c :: cs => if c != ' ' then none else some ((c :: cs).dropWhile (fun x => x == ' '))

/-- Go `time.skip(value, ":")`. -/
def skipColon (value : Str) : Option Str :=
  match value with
  | [] => none
  | c :: cs => if c == ':' then some cs else none

/-- Value of a string of decimal digits. -/
def digitsVal (s : Str) : Nat := s.foldl (fun n c => n * 10 + digitVal c) 0

/-- Fractional seconds present in the value but absent from the layout: after
the seconds, `.` or `,` followed by digits is read as nanoseconds (only the
first nine digits count).  Returns the nanoseconds and the rest of the value. -/
def fracSeconds (value : Str) : Nat × Str :=
  match value with
  | p :: d :: rest =>
    if (p == '.' || p == ',') && isDigit d then
      let ds := (d :: rest).takeWhile isDigit
      let ds9 := ds.take 9
      (digitsVal ds9 * 10 ^ (9 - ds9.length), (d :: rest).drop ds.length)
    else (0, value)
  | _ => (0, value)

/-- Go `time.isLeap`. -/
def isLeap (year : Nat) : Bool := year % 4 == 0 && (year % 100 != 0 || year % 400 == 0)

/-- Go `time.daysIn(m, year)`. -/
def daysIn (m year : Nat) : Nat :=
  if m == 2 then (if isLeap year then 29 else 28)
  else if m == 4 || m == 6 || m == 9 || m == 11 then 30 else 31

/-- The year element `2006` of the layout and the end of the value: exactly four
digits must remain. -/
def yearPart (value : Str) : Option Nat :=
  match value with
  | y0 :: y1 :: y2 :: y3 :: rest =>
    if !(isDigit y0 && isDigit y1 && isDigit y2 && isDigit y3) then none
    else if !rest.isEmpty then none
    else some (digitsVal [y0, y1, y2, y3])
  | _ => none

/-- The clock elements `15:04:05` of the layout: hour, minute, second,
nanosecond and the rest of the value. -/
def clockPart (value : Str) : Option (Nat × Nat × Nat × Nat × Str) :=
  match getnum value false with
  | none => none
  | some (hour, value) =>
  if 24 ≤ hour then none else
  match skipColon value with
  | none => none
  | some value =>
  match getnum value true with
  | none => none
  | some (min, value) =>
  if 60 ≤ min then none else
  match skipColon value with
  | none => none
  | some value =>
  match getnum value true with
  | none => none
  | some (sec, value) =>
  if 60 ≤ sec then none else
  let fs := fracSeconds value
  some (hour, min, sec, fs.1, fs.2)

/-- Successful run of `time.Parse(postfixForm, value)`; `none` is a parse error. -/
def timeParseCore (value : Str) : Option Time :=
  match lookupName shortMonthNames 0 value with
  | none => none
  | some (m, value) =>
  match skipSpace value with
  | none => none
  | some value =>
  match getnum value false with
  | none => none
  | some (day, value) =>
  match skipSpace value with
  | none => none
  | some value =>
  match clockPart value with
  | none => none
  | some (hour, min, sec, nsec, value) =>
  match skipSpace value with
  | none => none
  | some value =>
  match yearPart value with
  | none => none
  | some year =>
    if day < 1 || daysIn (m + 1) year < day then none
    else some ⟨year, m + 1, day, hour, min, sec, nsec⟩

/-- Go `time.Parse(postfixForm, value)`: the time and the error. -/
def timeParse (value : Str) : Time × Option GoError :=
  match timeParseCore value with
  | some t => (t, none)
  | none => (Time.zero, some .timeParse)

/-- Go `fmt.Sprintf("%d", year)` for a non-negative year. -/
def fmtYear (year : Nat) : Str := (Nat.toDigits 10 year)


/-! ## The event records -/

/-- The record built by `readSMTPdLine`. -/
structure SMTPdConnectionRecord where
  Component : Str := []
  DateTime : Time := Time.zero
  ProcessId : Int := 0
  RecordType : Int := 0
  Sequence : Int := 0
  ClientName : Str := []
  ClientIP : Str := []
  Hostname : Str := []
  QueueID : Str := []
deriving DecidableEq, Repr

/-- The record built by `parsePickupLine`. -/
structure PickupRecord where
  Component : Str := []
  DateTime : Time := Time.zero
  ProcessId : Int := 0
  RecordType : Int := 0
  Sequence : Int := 0
  Hostname : Str := []
  QueueID : Str := []
  Uid : Str := []
  From : Str := []
deriving DecidableEq, Repr

/-- The record built by `parseCleanupLine`. -/
structure CleanupRecord where
  Component : Str := []
  DateTime : Time := Time.zero
  ProcessId : Int := 0
  RecordType : Int := 0
  Sequence : Int := 0
  Hostname : Str := []
  QueueID : Str := []
  MessageId : Str := []
deriving DecidableEq, Repr

/-- The record built by `parseQmgrLine`. -/
structure QueueManagerRecord where
  Component : Str := []
  DateTime : Time := Time.zero
  ProcessId : Int := 0
  RecordType : Int := 0
  Sequence : Int := 0
  Hostname : Str := []
  QueueID : Str := []
  From : Str := []
  Size : Int := 0
  Nrcpt : Int := 0
deriving DecidableEq, Repr

/-- The record built by `parseSMTPLine`. -/
structure SMTPRecord where
  Component : Str := []
  DateTime : Time := Time.zero
  ProcessId : Int := 0
  RecordType : Int := 0
  Sequence : Int := 0
  Hostname : Str := []
  QueueID : Str := []
  To : Str := []
  Relay : Str := []
  Delay : Int := 0
  Status : Str := []
  StatusMessage : Str := []
deriving DecidableEq, Repr

/-- The record built by `parseDeliveryLine`. -/
structure DeliveryRecord where
  Component : Str := []
  DateTime : Time := Time.zero
  ProcessId : Int := 0
  RecordType : Int := 0
  Sequence : Int := 0
  Hostname : Str := []
  QueueID : Str := []
  To : Str := []
  OriginalTo : Str := []
  Relay : Str := []
  Delay : Float64 := ⟨0⟩
  Delays : Str := []
  Status : Str := []
  DSN : Str := []
  DeliveryMessage : Str := []
deriving DecidableEq, Repr

/-- A non-nil `MailEvent`: a pointer to one of the six record types.  The nil
interface value is `none : Option MailEvent`. -/
inductive MailEvent where
  | smtpd (r : SMTPdConnectionRecord)
  | pickup (r : PickupRecord)
  | cleanup (r : CleanupRecord)
  | qmgr (r : QueueManagerRecord)
  | smtp (r : SMTPRecord)
  | delivery (r : DeliveryRecord)
deriving DecidableEq, Repr

/-- Method `GetQID` of the six record types. -/
def MailEvent.GetQID : MailEvent → Str
  | .smtpd _ => []
  | .pickup _ => []
  | .cleanup _ => []
  | .qmgr _ => []
  | .smtp r => r.QueueID
  | .delivery r => r.QueueID

/-- Method `GetComponent` of the six record types. -/
def MailEvent.GetComponent : MailEvent → Str
  | .smtpd r => r.Component
  | .pickup r => r.Component
  | .cleanup r => r.Component
  | .qmgr r => r.Component
  | .smtp r => r.Component
  | .delivery r => r.Component

/-- Method `GetRecordType` of the six record types. -/
def MailEvent.GetRecordType : MailEvent → Int
  | .smtpd r => r.RecordType
  | .pickup r => r.RecordType
  | .cleanup r => r.RecordType
  | .qmgr r => r.RecordType
  | .smtp r => r.RecordType
  | .delivery r => r.RecordType

/-- Method `GetEventTime` of the six record types. -/
def MailEvent.GetEventTime : MailEvent → Time
  | .smtpd r => r.DateTime
  | .pickup r => r.DateTime
  | .cleanup r => r.DateTime
  | .qmgr r => r.DateTime
  | .smtp r => r.DateTime
  | .delivery r => r.DateTime

/-! ## The extractors

Each extractor takes the calendar year read from the wall clock
(`time.Now().Year()`) as `year`.  The result `Run.panic` is a run-time panic;
`Run.ok (event, err)` is the pair the Go function returns. -/

/-- The delimiter `"]: "` between the metadata prefix and the message body. -/
def metaSep : Str := [']', ':', ' ']

/-- The value `strings.Join(append(meta_parts[:3], cur_year), " ")` handed to
`time.Parse`. -/
def dateString (meta_parts : List Str) (year : Nat) : Str :=
  Join (meta_parts.take 3 ++ [fmtYear year]) [' ']

/-- Go `readSMTPdLine`. -/
def readSMTPdLine (year : Nat) (l : Str) : Run (MailEvent × Option GoError) := do
  let rec0 : SMTPdConnectionRecord := {}
  let parts := Split l metaSep
  let _meta ← idx parts 0
  let message ← idx parts 1
  let meta_parts := Fields _meta
  let host ← idx meta_parts 3
  let rec1 := { rec0 with Hostname := host, Component := "smtpd".toList }
  let (ts, err) := timeParse (dateString meta_parts year)
  if err.isSome then pure (MailEvent.smtpd rec1, err)
  else
    let rec2 := { rec1 with DateTime := ts }
    let mparts := Fields message
    if Contains l "connect from".toList then do
      let m0 ← idx mparts 0
      let rec3 :=
        if m0 = "disconnect".toList then { rec2 with RecordType := 1 }
        else if m0 = "connect".toList then { rec2 with RecordType := 0 }
        else rec2
      let m2 ← idx mparts 2
      let hparts := Split m2 ['[']
      let hname ← idx hparts 0
      let h1 ← idx hparts 1
      let ip := Trim h1 [']']
      pure (MailEvent.smtpd { rec3 with ClientIP := ip, ClientName := hname }, none)
    else if Contains message "lost connection after CONNECT".toList then
      pure (MailEvent.smtpd { rec2 with RecordType := 2 }, none)
    else if Contains message "client=".toList then do
      let m0 ← idx mparts 0
      pure (MailEvent.smtpd { rec2 with RecordType := 3, QueueID := Trim m0 [':'] }, none)
    else pure (MailEvent.smtpd rec2, none)

/-- Go `parsePickupLine`. -/
def parsePickupLine (year : Nat) (l : Str) : Run (MailEvent × Option GoError) := do
  let rec0 : PickupRecord := {}
  let parts := Split l metaSep
  let _meta ← idx parts 0
  let message ← idx parts 1
  let meta_parts := Fields _meta
  let host ← idx meta_parts 3
  let rec1 := { rec0 with Hostname := host, Component := "pickup".toList }
  let (ts, err) := timeParse (dateString meta_parts year)
  if err.isSome then pure (MailEvent.pickup rec1, err)
  else
    let rec2 := { rec1 with DateTime := ts }
    let mparts := Fields message
    let m0 ← idx mparts 0
    let rec3 := { rec2 with QueueID := Trim m0 [':'] }
    let m1 ← idx mparts 1
    let uid ← idx (Split m1 ['=']) 1
    pure (MailEvent.pickup { rec3 with Uid := uid }, err)

/-- Go `parseCleanupLine`. -/
def parseCleanupLine (year : Nat) (l : Str) : Run (MailEvent × Option GoError) := do
  let rec0 : CleanupRecord := {}
  let parts := Split l metaSep
  let _meta ← idx parts 0
  let message ← idx parts 1
  let meta_parts := Fields _meta
  let host ← idx meta_parts 3
  let rec1 := { rec0 with Hostname := host, Component := "cleanup".toList }
  let (ts, err) := timeParse (dateString meta_parts year)
  if err.isSome then pure (MailEvent.cleanup rec1, err)
  else
    let rec2 := { rec1 with DateTime := ts }
    let mparts := Fields message
    let m0 ← idx mparts 0
    let rec3 := { rec2 with QueueID := Trim m0 [':'] }
    let m1 ← idx mparts 1
    let mid ← idx (Split m1 ['=']) 1
    pure (MailEvent.cleanup { rec3 with MessageId := Trim mid ['<', '>'] }, err)

/-- Go `parseQmgrLine`. -/
def parseQmgrLine (year : Nat) (l : Str) : Run (MailEvent × Option GoError) := do
  let rec0 : QueueManagerRecord := {}
  let parts := Split l metaSep
  let _meta ← idx parts 0
  let message ← idx parts 1
  let meta_parts := Fields _meta
  let host ← idx meta_parts 3
  let rec1 := { rec0 with Hostname := host, Component := "qmgr".toList }
  let (ts, err) := timeParse (dateString meta_parts year)
  if err.isSome then pure (MailEvent.qmgr rec1, err)
  else
    let rec2 := { rec1 with DateTime := ts }
    let mparts := Fields message
    let m0 ← idx mparts 0
    let rec3 := { rec2 with QueueID := Trim m0 [':'] }
    let m1 ← idx mparts 1
    if m1 = "removed".toList then pure (MailEvent.qmgr { rec3 with Sequence := 1 }, none)
    else do
      let m2 ← idx mparts 2
      let tsize := Trim m2 [',']
      let sz ← idx (Split tsize ['=']) 1
      let (size, err) := ParseInt sz
      let rec4 := { rec3 with Size := size }
      if err.isSome then pure (MailEvent.qmgr rec4, err)
      else do
        let m3 ← idx mparts 3
        let tcnt := Trim m3 [',']
        let cn ← idx (Split tcnt ['=']) 1
        let (nrcpt, err) := ParseInt cn
        let rec5 := { rec4 with Nrcpt := nrcpt }
        if err.isSome then pure (MailEvent.qmgr rec5, err)
        else pure (MailEvent.qmgr rec5, err)

/-- The Go map `mcomponents`, as the list of its assignments, latest first. -/
abbrev StrMap := List (Str × Str)

/-- Go map read `m[k]`: the latest value stored under `k`, or the empty string. -/
def StrMap.get (m : StrMap) (k : Str) : Str := (m.lookup k).getD []

/-- The loop of `parseSMTPLine` filling `mcomponents` from the pieces of the
body: a piece is stored when splitting it at `"="` gives exactly two parts. -/
def kvPairs : List Str → StrMap → StrMap
  | [], m => m
  | p :: ps, m =>
    match Split p ['='] with
    | [k, v] => kvPairs ps ((k, v) :: m)
    | _ => kvPairs ps m

/-- Go `parseSMTPLine`. -/
def parseSMTPLine (year : Nat) (l : Str) : Run (MailEvent × Option GoError) := do
  let rec0 : SMTPRecord := {}
  let parts := Split l metaSep
  let _meta ← idx parts 0
  let message ← idx parts 1
  let meta_parts := Fields _meta
  let host ← idx meta_parts 3
  let rec1 := { rec0 with Hostname := host, Component := "smtp".toList }
  let (ts, err) := timeParse (dateString meta_parts year)
  if err.isSome then pure (MailEvent.smtp rec1, none)
  else
    let rec2 := { rec1 with DateTime := ts }
    let qsplit := SplitN message [':', ' '] 2
    let q1 ← idx qsplit 1
    let mparts := Split q1 [',', ' ']
    let mcomponents := kvPairs mparts []
    let m0 ← idx mparts 0
    let rec3 := { rec2 with QueueID := Trim m0 [':'] }
    if rec3.QueueID = "warning".toList then pure (MailEvent.smtp rec3, none)
    else if rec3.QueueID = "connect".toList then pure (MailEvent.smtp rec3, none)
    else do
      let rec4 := { rec3 with To := mcomponents.get "to".toList }
      let relay := mcomponents.get "relay".toList
      let delay := mcomponents.get "delay".toList
      let status_split := SplitN (mcomponents.get "status".toList) [' '] 2
      let s0 ← idx status_split 0
      let rec5 := { rec4 with Status := s0 }
      let s1 ← idx status_split 1
      let rec6 := { rec5 with StatusMessage := s1 }
      let (d, err) := ParseInt delay
      let rec7 := { rec6 with Delay := d }
      if err.isSome then pure (MailEvent.smtp rec7, none)
      else if Contains relay ['['] then do
        let r1 ← idx (Split relay ['[']) 1
        pure (MailEvent.smtp { rec7 with Relay := r1 }, none)
      else pure (MailEvent.smtp { rec7 with Relay := relay }, none)

/-- Go `parseDeliveryLine`; `parseFloat` stands for `strconv.ParseFloat(·, 32)`. -/
def parseDeliveryLine (parseFloat : Str → Float64 × Option GoError) (year : Nat) (l : Str) :
    Run (MailEvent × Option GoError) := do
  let rec0 : DeliveryRecord := {}
  let parts := Split l metaSep
  let _meta ← idx parts 0
  let message ← idx parts 1
  let meta_parts := Fields _meta
  let host ← idx meta_parts 3
  let rec1 := { rec0 with Hostname := host, Component := "local".toList }
  let (ts, err) := timeParse (dateString meta_parts year)
  if err.isSome then pure (MailEvent.delivery rec1, err)
  else
    let rec2 := { rec1 with DateTime := ts }
    let mparts := Fields message
    let m0 ← idx mparts 0
    let rec3 := { rec2 with QueueID := Trim m0 [':'] }
    if rec3.QueueID = "warning".toList then pure (MailEvent.delivery rec3, err)
    else if rec3.QueueID = "connect".toList then pure (MailEvent.delivery rec3, err)
    else do
      let dmr ← idx (Split message "status=".toList) 1
      let dm1 ← idx (SplitN dmr [' '] 2) 1
      let rec4 := { rec3 with DeliveryMessage := Trim dm1 ['(', ')'] }
      let m1 ← idx mparts 1
      let to1 ← idx (Split (Trim m1 ['<', '>', ',']) ['=']) 1
      let rec5 := { rec4 with To := Trim to1 ['<', '>'] }
      let m2 ← idx mparts 2
      let oto ← idx (Split (Trim m2 ['<', '>', ',']) ['=']) 1
      let rec6 := { rec5 with OriginalTo := Trim oto ['<', '>'] }
      let m3 ← idx mparts 3
      let relay ← idx (Split (Trim m3 [']', ',']) ['=']) 1
      let m4 ← idx mparts 4
      let delay ← idx (Split (Trim m4 [',']) ['=']) 1
      let m5 ← idx mparts 5
      let delays ← idx (Split (Trim m5 [',']) ['=']) 1
      let rec7 := { rec6 with Delays := delays }
      let m6 ← idx mparts 6
      let d0 ← idx (Split m6 [' ']) 0
      let dsn ← idx (Split d0 ['=']) 1
      let rec8 := { rec7 with DSN := dsn }
      let m7 ← idx mparts 7
      let t0 ← idx (Split m7 [' ']) 0
      let st ← idx (Split t0 ['=']) 1
      let rec9 := { rec8 with Status := st }
      let (d, err) := parseFloat delay
      let rec10 := { rec9 with Delay := d }
      if err.isSome then pure (MailEvent.delivery rec10, err)
      else if Contains relay ['['] then do
        let r1 ← idx (Split relay ['[']) 1
        pure (MailEvent.delivery { rec10 with Relay := r1 }, err)
      else pure (MailEvent.delivery { rec10 with Relay := relay }, err)

/-! ## The store and the ingest loop -/

/-- Go `LogStore`; a nil element of `Events` is `none`. -/
structure LogStore where
  Filename : Str := []
  Events : List (Option MailEvent) := []
deriving DecidableEq, Repr

/-- State of the loop of `ParseLogFile`: the store and the variable `event`,
which is declared before the loop and keeps its value from one line to the next.
(The variable `err` is assigned in the loop and never read.) -/
structure LoopState where
  store : LogStore := {}
  event : Option MailEvent := none
deriving DecidableEq, Repr

/-- The marker `" postfix/"` tested on every line. -/
def marker : Str := " postfix/".toList

/-- The `switch component` of `ParseLogFile`: `some r` when a case is selected,
with `r` the outcome of the extractor; `none` when no case matches. -/
def dispatch (parseFloat : Str → Float64 × Option GoError) (year : Nat)
    (component l : Str) : Option (Run (MailEvent × Option GoError)) :=
  if component = "postfix/smtpd".toList then some (readSMTPdLine year l)
  else if component = "postfix/pickup".toList then some (parsePickupLine year l)
  else if component = "postfix/cleanup".toList then some (parseCleanupLine year l)
  else if component = "postfix/qmgr".toList then some (parseQmgrLine year l)
  else if component = "postfix/smtp".toList then some (parseSMTPLine year l)
  else if component = "postfix/local".toList then some (parseDeliveryLine parseFloat year l)
  else none

/-- One iteration of the loop of `ParseLogFile` on the line `line`. -/
def parseLine (parseFloat : Str → Float64 × Option GoError) (year : Nat)
    (st : LoopState) (line : Str) : Run LoopState :=
  if !Contains line marker then pure st
  else do
    let allfields := Fields line
    let f4 ← idx allfields 4
    let c1 := Split f4 ['[']
    let component ← idx c1 0
    let event ←
      match dispatch parseFloat year component line with
      | some r => r.bind (fun p => pure (some p.1))
      | none => pure st.event
    pure { store := { st.store with Events := st.store.Events ++ [event] }, event := event }

/-- The loop of `ParseLogFile` over the lines of an opened log. -/
def parseLines (parseFloat : Str → Float64 × Option GoError) (year : Nat)
    (st : LoopState) (lines : List Str) : Run LoopState :=
  lines.foldlM (parseLine parseFloat year) st

/-! ## The shape of well-formed lines

A log line reads `<Mon> <D> <HH:MM:SS> <host> postfix/<subsystem>[<pid>]: <body>`.
The definitions below build such lines from their parts and state, as
executable tests, what "well-formed" asks of the parts. -/

/-- The metadata prefix `<Mon> <D> <HH:MM:SS> <host> <tag>[<pid>` of a log line. -/
def metaText (m d t host tag pid : Str) : Str :=
  m ++ ' ' :: (d ++ ' ' :: (t ++ ' ' :: (host ++ ' ' :: (tag ++ '[' :: pid))))

/-- The log line `<Mon> <D> <HH:MM:SS> <host> <tag>[<pid>]: <body>`. -/
def logLine (m d t host tag pid body : Str) : Str :=
  metaText m d t host tag pid ++ (metaSep ++ body)

/-- A non-empty text without white space. -/
def isToken (s : Str) : Bool := !s.isEmpty && s.all (fun c => !isSpace c)

/-- The text `s` contains none of the characters `cs`. -/
def avoids (s : Str) (cs : List Char) : Bool := s.all (fun c => !cs.contains c)

/-- Month, day, time and host are tokens, the process id has no white space, and
none of them contains `]`. -/
def headOK (m d t host pid : Str) : Bool :=
  isToken m && isToken d && isToken t && isToken host &&
  pid.all (fun c => !isSpace c) &&
  avoids m [']'] && avoids d [']'] && avoids t [']'] && avoids host [']'] &&
  avoids pid [']']

/-- The date and time tokens parse under the year `year`. -/
def dateOK (year : Nat) (m d t : Str) : Bool :=
  (timeParse (Join [m, d, t, fmtYear year] [' '])).2.isNone

/-- The text `to=<A>, relay=R, delay=D, status=V` of a relay line. -/
def smtpPairs (A R D V : Str) : Str :=
  ("to=<".toList ++ A ++ ['>']) ++ ([',', ' '] ++ (("relay=".toList ++ R) ++ ([',', ' '] ++
    (("delay=".toList ++ D) ++ ([',', ' '] ++ ("status=".toList ++ V))))))

/-- The body `Q: to=<A>, relay=R, delay=D, status=V` of a relay line. -/
def smtpBody (Q A R D V : Str) : Str := Q ++ ([':', ' '] ++ smtpPairs A R D V)

/-- What "well-formed" asks of the parts of a relay body whose status text is
`S T`: the queue id has no `:`, the values of `to`, `relay` and `delay` have
neither `,` nor `=`, the status word has neither space nor `=`, the status
message has no `=`, the status text does not contain `", "`, and the body does
not contain the delimiter `"]: "`. -/
def smtpBodyOK (Q A R D S T : Str) : Bool :=
  avoids Q [':'] && avoids A [',', '='] && avoids R [',', '='] && avoids D [',', '='] &&
  avoids S [' ', '='] && avoids T ['='] && !Contains (S ++ ([' '] ++ T)) [',', ' '] &&
  !Contains (smtpBody Q A R D (S ++ ([' '] ++ T))) metaSep

/-- The body `Q: removed` of a queue-manager line. -/
def qmgrRemovedBody (Q : Str) : Str := (Q ++ [':']) ++ ' ' :: "removed".toList

/-- The body `Q: from=<F>, size=S, nrcpt=N <rest>` of a queue-manager line. -/
def qmgrSizeBody (Q F S N rest : Str) : Str :=
  (Q ++ [':']) ++ ' ' :: (("from=<".toList ++ F ++ ['>', ',']) ++ ' ' ::
    (("size=".toList ++ S ++ [',']) ++ ' ' :: (("nrcpt=".toList ++ N) ++ ' ' :: rest)))

/-- A queue id has no white space and contains neither `:` nor `]`. -/
def queueIdOK (Q : Str) : Bool := Q.all (fun c => !isSpace c) && avoids Q [':', ']']

/-- What "well-formed" asks of the parts of a queue-manager body with sizes: the
sender, size and recipient count have no white space, size and count contain
neither `,` nor `=`, and the body does not contain the delimiter `"]: "`. -/
def qmgrSizeOK (Q F S N rest : Str) : Bool :=
  F.all (fun c => !isSpace c) && S.all (fun c => !isSpace c) && N.all (fun c => !isSpace c) &&
  avoids S [',', '='] && avoids N [',', '='] &&
  !Contains (qmgrSizeBody Q F S N rest) metaSep

/-! ## The recency filter

A `time.Time` denotes an instant; `Time.nanos` gives it in nanoseconds from
January 1 of year 1, 00:00:00 UTC.  A `time.Duration` is a number of nanoseconds
in the range of `int64`. -/

/-- Days from January 1 to the first day of month `m`, in a common year. -/
def daysBefore (m : Nat) : Nat :=
  [0, 31, 59, 90, 120, 151, 181, 212, 243, 273, 304, 334].getD (m - 1) 0

/-- Days from January 1 of year 1 to the day of `t`. -/
def Time.days (t : Time) : Int :=
  let y : Int := (t.year : Int) - 1
  365 * y + y / 4 - y / 100 + y / 400 + (daysBefore t.month : Int) +
    (if isLeap t.year && 2 < t.month then 1 else 0) + ((t.day : Int) - 1)

/-- The instant of `t`, in nanoseconds from January 1 of year 1, 00:00:00 UTC. -/
def Time.nanos (t : Time) : Int :=
  (((t.days * 24 + (t.hour : Int)) * 60 + (t.min : Int)) * 60 + (t.sec : Int)) * 1000000000 +
    (t.nsec : Int)

/-- Go `minDuration`. -/
def minDuration : Int := -(2 ^ 63)

/-- Go `maxDuration`. -/
def maxDuration : Int := 2 ^ 63 - 1

/-- Go `time.Second`, as a `time.Duration`. -/
def Second : Int := 1000000000

/-- Go `t.Sub(u)` on wall-clock readings: the difference of the instants, or
`minDuration`/`maxDuration` when it is out of the range of a `time.Duration`. -/
def Time.Sub (t u : Time) : Int :=
  let d := t.nanos - u.nanos
  if d < minDuration then minDuration else if maxDuration < d then maxDuration else d

/-- Go `time.Since(t)`, i.e. `time.Now().Sub(t)`, with `now` the reading of the
clock. -/
def Since (now t : Time) : Int := now.Sub t

/-- The loop of `GetRecords`.  The clock is read once per event: `clock i` is the
reading for the event at position `i`.  A nil event makes the call
`e.GetEventTime()` panic. -/
def getRecordsLoop (clock : Nat → Time) (ma : Int) :
    Nat → List (Option MailEvent) → List (Option MailEvent) → Run (List (Option MailEvent))
  | _, [], elist => Run.ok elist
  | _, none :: _, _ => Run.panic
  | i, some e :: es, elist =>
    if Since (clock i) e.GetEventTime < ma then
      getRecordsLoop clock ma (i + 1) es (elist ++ [some e])
    else getRecordsLoop clock ma (i + 1) es elist

/-- Go `(l *LogStore).GetRecords(ma)`: the list it returns and the store after
the call (the method assigns nothing to the store). -/
def GetRecords (clock : Nat → Time) (l : LogStore) (ma : Int) :
    Run (List (Option MailEvent) × LogStore) :=
  (getRecordsLoop clock ma 0 l.Events []).bind (fun elist => Run.ok (elist, l))

/-- The test of `GetRecords` on an element of `Events`: the event is non-nil and
`time.Since` of its time is below `ma`. -/
def withinWindow (now : Time) (ma : Int) : Option MailEvent → Bool
  | some e => decide (Since now e.GetEventTime < ma)
  | none => false

/-! ## More shapes of well-formed lines -/

/-- A decimal integer that `strconv.ParseInt(s, 0, 0)` reads in base 10: a
non-empty string of digits, without a leading zero unless it is `0`, denoting a
value below `2^63`. -/
def decimalOK (s : Str) : Bool :=
  !s.isEmpty && s.all isDigit && (s.length == 1 || s.head? != some '0') &&
  decide (digitsVal s < 2 ^ 63)

/-- What may follow the last token of a body: nothing, or white space and more
text. -/
def tailOK (tail : Str) : Bool :=
  match tail with
  | [] => true
  | c :: _ => isSpace c

/-- The body `Q: from=<F>, size=S, nrcpt=N` of a queue-manager line, followed by
`tail`. -/
def qmgrPairsBody (Q F S N tail : Str) : Str :=
  (Q ++ [':']) ++ ' ' :: (("from=<".toList ++ F ++ ['>', ',']) ++ ' ' ::
    (("size=".toList ++ S ++ [',']) ++ ' ' :: (("nrcpt=".toList ++ N) ++ tail)))

/-- What "well-formed" asks of the parts of `qmgrPairsBody`: the sender, size
and recipient count have no white space, size and count contain neither `,` nor
`=`, the tail is empty or starts with white space, and the body does not contain
the delimiter `"]: "`. -/
def qmgrPairsOK (Q F S N tail : Str) : Bool :=
  F.all (fun c => !isSpace c) && S.all (fun c => !isSpace c) && N.all (fun c => !isSpace c) &&
  avoids S [',', '='] && avoids N [',', '='] && tailOK tail &&
  !Contains (qmgrPairsBody Q F S N tail) metaSep


/-- The body `<verb> from N[IP]` of a connection line, followed by `tail`. -/
def smtpdConnBody (verb N IP tail : Str) : Str :=
  verb ++ ' ' :: ("from".toList ++ ' ' :: ((N ++ '[' :: (IP ++ [']'])) ++ tail))

/-- What "well-formed" asks of the parts of `smtpdConnBody`: the client name has
no white space and no `[`, the address has no white space, `[` or `]`, the tail
is empty or starts with white space, and the body does not contain the
delimiter `"]: "`. -/
def smtpdConnOK (verb N IP tail : Str) : Bool :=
  N.all (fun c => !isSpace c) && IP.all (fun c => !isSpace c) &&
  avoids N ['['] && avoids IP ['[', ']'] && tailOK tail &&
  !Contains (smtpdConnBody verb N IP tail) metaSep

/-- The text of a line after its first delimiter `"]: "`, which the extractors
call `message` (`parts[1]`); empty when the line has no delimiter. -/
def messageOf (l : Str) : Str := (Split l metaSep).getD 1 []

/-- The first white-space separated token of a text (`mparts[0]`); empty when
there is none. -/
def firstField (s : Str) : Str := (Fields s).getD 0 []


/-- The body `Q: message-id=<M>` of a cleanup line, followed by `tail`. -/
def cleanupBody (Q M tail : Str) : Str :=
  (Q ++ [':']) ++ ' ' :: (("message-id=".toList ++ '<' :: (M ++ ['>'])) ++ tail)

/-- The text `s` neither starts nor ends with one of the characters `cs`. -/
def bare (s : Str) (cs : List Char) : Bool :=
  (match s.head? with
   | some c => !cs.contains c
   | none => true) &&
  (match s.getLast? with
   | some c => !cs.contains c
   | none => true)

/-- What "well-formed" asks of the parts of `cleanupBody`: the message id has no
white space and no `=`, it neither starts nor ends with `<` or `>`, the tail is
empty or starts with white space, and the body does not contain the delimiter
`"]: "`. -/
def cleanupOK (Q M tail : Str) : Bool :=
  M.all (fun c => !isSpace c) && avoids M ['='] && bare M ['<', '>'] && tailOK tail &&
  !Contains (cleanupBody Q M tail) metaSep

/-! ## Sample log lines -/

/-- A line of a subsystem that `ParseLogFile` does not know. -/
def anvilLine : Str :=
  "Jan 5 10:22:31 mail postfix/anvil[1234]: statistics: max connection rate 1/60s".toList

/-- A queue-manager line whose size is not a number. -/
def qmgrBadSizeLine : Str :=
  "Jan 5 10:23:01 mail postfix/qmgr[1234]: ABC123: from=<a@b.com>, size=abc, nrcpt=1 (queue active)".toList

/-- A line that carries the marker and has only two fields. -/
def shortLine : Str := "x postfix/".toList

/-- A line without the marker, with fewer than five fields and no delimiter. -/
def kernelLine : Str := "Jan 5 kernel".toList

/-- The record that `parseQmgrLine` returns, with an error, on `qmgrBadSizeLine`. -/
def qmgrBadSizeRecord : QueueManagerRecord :=
  { Component := "qmgr".toList, DateTime := ⟨2026, 1, 5, 10, 23, 1, 0⟩,
    Hostname := "mail".toList, QueueID := "ABC123".toList }


/-- The relay line documented in the specification (`delay=1.2`). -/
def relaySample : Str :=
  "Jan 5 10:24:00 mail postfix/smtp[1234]: ABC123: to=<x@y.com>, relay=mx.y.com[1.2.3.4]:25, delay=1.2, status=sent (250 OK)".toList

/-- The record that `parseSMTPLine` returns on `relaySample` in 2026. -/
def relaySampleRecord : SMTPRecord :=
  { Component := "smtp".toList, DateTime := ⟨2026, 1, 5, 10, 24, 0, 0⟩,
    Hostname := "mail".toList, QueueID := "to=<x@y.com>".toList, To := "<x@y.com>".toList,
    Status := "sent".toList, StatusMessage := "(250 OK)".toList }

/-- The relay line of the specification with an integer delay. -/
def relayIntLine : Str :=
  "Jan 5 10:24:00 mail postfix/smtp[1234]: ABC123: to=<x@y.com>, relay=mx.y.com[1.2.3.4]:25, delay=12, status=sent (250 OK)".toList

/-- The record that `parseSMTPLine` returns on `relayIntLine` in 2026. -/
def relayIntRecord : SMTPRecord :=
  { relaySampleRecord with Relay := "1.2.3.4]:25".toList, Delay := 12 }

/-- A relay line whose status message contains `", "`. -/
def relayCommaLine : Str :=
  "Jan 5 10:24:00 mail postfix/smtp[1234]: ABC123: to=<x@y.com>, relay=none, delay=12, status=sent (250 OK, queued)".toList

/-- The record that `parseSMTPLine` returns on `relayCommaLine` in 2026. -/
def relayCommaRecord : SMTPRecord :=
  { relaySampleRecord with Relay := "none".toList, Delay := 12, StatusMessage := "(250 OK".toList }

/-- A relay line whose status message contains `=`. -/
def relayEqualsLine : Str :=
  "Jan 5 10:24:00 mail postfix/smtp[1234]: ABC123: to=<x@y.com>, relay=none, delay=12, status=sent (250 OK id=5)".toList

/-- A relay line whose body starts with the sentinel `warning`. -/
def relayWarningLine : Str :=
  "Jan 5 10:24:00 mail postfix/smtp[1234]: warning: no MX host for y.com".toList

/-- A relay line whose body starts with the sentinel `connect`. -/
def relayConnectLine : Str :=
  "Jan 5 10:24:00 mail postfix/smtp[1234]: connect to mx.y.com[1.2.3.4]:25: Connection timed out".toList

/-- The body of `relayWarningLine` on a local-delivery line. -/
def localWarningLine : Str :=
  "Jan 5 10:24:00 mail postfix/local[1234]: warning: no MX host for y.com".toList

/-- The record that `parseDeliveryLine` returns on `localWarningLine` in 2026. -/
def localWarningRecord : DeliveryRecord :=
  { Component := "local".toList, DateTime := ⟨2026, 1, 5, 10, 24, 0, 0⟩,
    Hostname := "mail".toList, QueueID := "warning".toList }

/-- A relay line whose delay is not a number. -/
def relayBadDelayLine : Str :=
  "Jan 5 10:24:00 mail postfix/smtp[1234]: ABC123: to=<x@y.com>, relay=none, delay=abc, status=sent (250 OK)".toList

/-- A relay line whose month does not parse. -/
def relayBadDateLine : Str :=
  "Jax 5 10:24:00 mail postfix/smtp[1234]: ABC123: to=<x@y.com>, relay=none, delay=12, status=sent (250 OK)".toList

/-- The record that `parseSMTPLine` returns on `relayBadDateLine`. -/
def relayBadDateRecord : SMTPRecord :=
  { Component := "smtp".toList, Hostname := "mail".toList }

/-- The line of `relayBadDateLine` under the queue-manager tag. -/
def qmgrBadDateLine : Str :=
  "Jax 5 10:22:40 mail postfix/qmgr[1234]: ABC123: removed".toList

/-- The queue-manager line documented in the specification for a removal. -/
def qmgrRemovedLine : Str :=
  "Jan 5 10:22:40 mail postfix/qmgr[1234]: ABC123: removed".toList

/-- The record that `parseQmgrLine` returns on `qmgrRemovedLine` in 2026. -/
def qmgrRemovedRecord : QueueManagerRecord :=
  { Component := "qmgr".toList, DateTime := ⟨2026, 1, 5, 10, 22, 40, 0⟩, Sequence := 1,
    Hostname := "mail".toList, QueueID := "ABC123".toList }

/-- A relay line whose delay `08` is a decimal integer with a leading zero. -/
def relayOctalLine : Str :=
  "Jan 5 10:24:00 mail postfix/smtp[1234]: ABC123: to=<x@y.com>, relay=none, delay=08, status=sent (250 OK)".toList

/-- A stand-in for `strconv.ParseFloat` that accepts every text. -/
def noFloat : Str → Float64 × Option GoError := fun _ => (⟨0⟩, none)

/-- A query instant: November 4, 2026, 12:00:00. -/
def queryNow : Time := ⟨2026, 11, 4, 12, 0, 0, 0⟩

/-- An event ten seconds before `queryNow`. -/
def recentEvent : MailEvent := MailEvent.qmgr { DateTime := ⟨2026, 11, 4, 11, 59, 50, 0⟩ }

/-- An event a thousand seconds before `queryNow`. -/
def oldEvent : MailEvent := MailEvent.qmgr { DateTime := ⟨2026, 11, 4, 11, 43, 20, 0⟩ }

/-- A queue-manager line dated December 31. -/
def futureLine : Str :=
  "Dec 31 23:59:59 mail postfix/qmgr[1234]: ABC123: removed".toList

/-- The record that `parseQmgrLine` returns on `futureLine` in 2026. -/
def futureRecord : QueueManagerRecord :=
  { Component := "qmgr".toList, DateTime := ⟨2026, 12, 31, 23, 59, 59, 0⟩, Sequence := 1,
    Hostname := "mail".toList, QueueID := "ABC123".toList }


/-- A queue-manager line whose size is written with a leading zero. -/
def qmgrOctalLine : Str :=
  "Jan 5 10:23:01 mail postfix/qmgr[1234]: ABC123: from=<a@b.com>, size=010, nrcpt=1 (queue active)".toList

/-- The record that `parseQmgrLine` returns on `qmgrOctalLine` in 2026. -/
def qmgrOctalRecord : QueueManagerRecord :=
  { Component := "qmgr".toList, DateTime := ⟨2026, 1, 5, 10, 23, 1, 0⟩,
    Hostname := "mail".toList, QueueID := "ABC123".toList, Size := 8, Nrcpt := 1 }

/-- A queue-manager line whose recipient count is `08`. -/
def qmgrEightLine : Str :=
  "Jan 5 10:23:01 mail postfix/qmgr[1234]: ABC123: from=<a@b.com>, size=512, nrcpt=08 (queue active)".toList

/-- A connection-subsystem line that reports neither a connection, nor a lost
connection, nor a client. -/
def smtpdWarningLine : Str :=
  "Jan 5 10:22:31 mail postfix/smtpd[1234]: warning: hostname x.example.com does not resolve to address 10.0.0.5".toList

/-- The record that `readSMTPdLine` returns on `smtpdWarningLine` in 2026. -/
def smtpdWarningRecord : SMTPdConnectionRecord :=
  { Component := "smtpd".toList, DateTime := ⟨2026, 1, 5, 10, 22, 31, 0⟩,
    Hostname := "mail".toList }

/-- A connection-subsystem line that names the client of a queued message. -/
def smtpdClientLine : Str :=
  "Jan 5 10:22:35 mail postfix/smtpd[1234]: ABC123: client=host.example.com[10.0.0.5]".toList

/-- A connection-subsystem line that reports a connection lost after `CONNECT`. -/
def smtpdLostLine : Str :=
  "Jan 5 10:22:33 mail postfix/smtpd[1234]: lost connection after CONNECT from unknown[10.0.0.5]".toList

/-- A connection-subsystem line that reports a connection lost after `DATA`. -/
def smtpdLostDataLine : Str :=
  "Jan 5 10:22:33 mail postfix/smtpd[1234]: lost connection after DATA from unknown[10.0.0.5]".toList

/-- The record that `readSMTPdLine` returns on `smtpdClientLine` in 2026. -/
def smtpdClientRecord : SMTPdConnectionRecord :=
  { Component := "smtpd".toList, DateTime := ⟨2026, 1, 5, 10, 22, 35, 0⟩,
    RecordType := 3, Hostname := "mail".toList, QueueID := "ABC123".toList }

/-- A local-delivery line of the usual form. -/
def localLine : Str :=
  "Jan 5 10:22:31 mail postfix/local[1234]: ABC123: to=<a@b.c>, orig_to=<root>, relay=local, delay=0.05, delays=0.01/0/0/0.04, dsn=2.0.0, status=sent (delivered to mailbox)".toList

/-- The record that `parseDeliveryLine` returns on `localLine` in 2026, before
the delay is stored. -/
def localRecord : DeliveryRecord :=
  { Component := "local".toList, DateTime := ⟨2026, 1, 5, 10, 22, 31, 0⟩,
    Hostname := "mail".toList, QueueID := "ABC123".toList, To := "a@b.c".toList,
    OriginalTo := "root".toList, Delays := "0.01/0/0/0.04".toList, DSN := "2.0.0,".toList,
    Status := "sent".toList, DeliveryMessage := "delivered to mailbox".toList }

/-- A cleanup line whose message id contains `=`. -/
def cleanupEqualsLine : Str :=
  "Jan 5 10:22:32 mail postfix/cleanup[1234]: ABC123: message-id=<a=b@host.example.com>".toList

/-- The record that `parseCleanupLine` returns on `cleanupEqualsLine` in 2026. -/
def cleanupEqualsRecord : CleanupRecord :=
  { Component := "cleanup".toList, DateTime := ⟨2026, 1, 5, 10, 22, 32, 0⟩,
    Hostname := "mail".toList, QueueID := "ABC123".toList, MessageId := "a".toList }
/-! ## Evaluation lemmas for the `Run` monad -/

@[simp] theorem Run.ok_bind {α β : Type} (a : α) (f : α → Run β) :
    (Run.ok a >>= f) = f a := rfl

@[simp] theorem Run.panic_bind {α β : Type} (f : α → Run β) :
    (Run.panic >>= f) = Run.panic := rfl

@[simp] theorem Run.pure_eq {α : Type} (a : α) : (pure a : Run α) = Run.ok a := rfl

@[simp] theorem Run.bind_ok {α β : Type} (a : α) (f : α → Run β) :
    (Run.ok a).bind f = f a := rfl

@[simp] theorem Run.bind_panic {α β : Type} (f : α → Run β) :
    (Run.panic : Run α).bind f = Run.panic := rfl

/-! ## Lemmas on the `strings` model -/

theorem hasPrefix_self_append (sep b : Str) : hasPrefix sep (sep ++ b) = true := by
  induction sep with
  | nil => cases b <;> rfl
  | cons h t ih => simp [hasPrefix, ih]

theorem hasPrefix_head_ne (h c : Char) (sep cs : Str) (hne : c ≠ h) :
    hasPrefix (h :: sep) (c :: cs) = false := by
  simp [hasPrefix, Ne.symm hne]

/-- The first occurrence of a separator is where it first can start: right after
a text that does not contain the separator's first character. -/
theorem cut_append_sep (h : Char) (sep' sep a b : Str) (hs : sep = h :: sep')
    (ha : ∀ c ∈ a, c ≠ h) : cut sep (a ++ (sep ++ b)) = some (a, b) := by
  induction a with
  | nil =>
    have hp : hasPrefix sep (sep ++ b) = true := hasPrefix_self_append sep b
    rw [List.nil_append]
    cases hb : sep ++ b with
    | nil => simp [hs] at hb
    | cons x xs =>
      rw [hb] at hp
      rw [cut, if_pos hp, ← hb, List.drop_left]
  | cons c cs ih =>
    have hc : c ≠ h := ha c (List.mem_cons_self c cs)
    have ih2 := ih (fun x hx => ha x (List.mem_cons_of_mem c hx))
    have hp := hasPrefix_head_ne h c sep' (cs ++ (sep ++ b)) hc
    rw [← hs] at hp
    rw [List.cons_append, cut, hp, ih2]
    rfl

/-- A text that does not contain the separator is not cut. -/
theorem cut_of_not_contains (sep s : Str) (hs : Contains s sep = false) : cut sep s = none := by
  induction s with
  | nil => simp [Contains] at hs; simp [cut, hs]
  | cons c cs ih =>
    simp only [Contains, Bool.or_eq_false_iff] at hs
    simp [cut, hs.1, ih hs.2]

/-- A text without the first character of the separator does not contain it. -/
theorem not_contains_of_head (h : Char) (sep s : Str) (hs : ∀ c ∈ s, c ≠ h) :
    Contains s (h :: sep) = false := by
  induction s with
  | nil => simp [Contains, hasPrefix]
  | cons c cs ih =>
    have hc : c ≠ h := hs c (List.mem_cons_self c cs)
    simp [Contains, hasPrefix_head_ne h c sep cs hc,
      ih (fun x hx => hs x (List.mem_cons_of_mem c hx))]

theorem genSplit_last (sep s : Str) (n : Nat) (hn : 0 < n) (hs : cut sep s = none) :
    genSplit sep n s = [s] := by
  match n, hn with
  | 1, _ => rfl
  | k + 2, _ => simp [genSplit, hs]

/-- Splitting a text made of pieces joined by the separator gives the pieces, when
no piece but the last contains the separator's first character and the last piece
does not contain the separator. -/
theorem genSplit_pieces (h : Char) (sep' sep : Str) (hs : sep = h :: sep') (ps : List Str)
    (last : Str) (n : Nat) (hps : ∀ p ∈ ps, ∀ c ∈ p, c ≠ h) (hlast : cut sep last = none)
    (hn : ps.length < n) :
    genSplit sep n (ps.foldr (fun p acc => p ++ (sep ++ acc)) last) = ps ++ [last] := by
  induction ps generalizing n with
  | nil => simpa using genSplit_last sep last n (by simpa using hn) hlast
  | cons p ps ih =>
    match n, hn with
    | k + 2, hk =>
      have hcut := cut_append_sep h sep' sep p
        (ps.foldr (fun p acc => p ++ (sep ++ acc)) last) hs
        (hps p (List.mem_cons_self p ps))
      have ih2 := ih (k + 1) (fun q hq => hps q (List.mem_cons_of_mem p hq))
        (by simp at hk; omega)
      rw [List.foldr_cons, genSplit, hcut]
      simp only [ih2, List.cons_append]

theorem length_foldr_pieces (sep : Str) (ps : List Str) (last : Str) (hsep : sep ≠ []) :
    ps.length ≤ (ps.foldr (fun p acc => p ++ (sep ++ acc)) last).length := by
  induction ps with
  | nil => simp
  | cons p ps ih =>
    have : 0 < sep.length := List.length_pos.mpr hsep
    simp only [List.foldr_cons, List.length_cons, List.length_append]
    omega

/-- `Split` on pieces joined by the separator; see `genSplit_pieces`. -/
theorem Split_pieces (h : Char) (sep' sep : Str) (hs : sep = h :: sep') (ps : List Str)
    (last : Str) (hps : ∀ p ∈ ps, ∀ c ∈ p, c ≠ h) (hlast : cut sep last = none) :
    Split (ps.foldr (fun p acc => p ++ (sep ++ acc)) last) sep = ps ++ [last] := by
  have hne : sep ≠ [] := by simp [hs]
  have hlen := length_foldr_pieces sep ps last hne
  unfold Split
  rw [if_neg hne]
  exact genSplit_pieces h sep' sep hs ps last _ hps hlast (by omega)

/-- `SplitN` with a bound of two pieces cuts at the first separator. -/
theorem SplitN_two (h : Char) (sep' sep a b : Str) (hs : sep = h :: sep')
    (ha : ∀ c ∈ a, c ≠ h) : SplitN (a ++ (sep ++ b)) sep 2 = [a, b] := by
  have hne : sep ≠ [] := by simp [hs]
  unfold SplitN
  rw [if_neg hne, genSplit, cut_append_sep h sep' sep a b hs ha]
  rfl

theorem fieldsAux_token (tok rest cur : Str) (ht : ∀ c ∈ tok, isSpace c = false) :
    fieldsAux (tok ++ rest) cur = fieldsAux rest (tok.reverse ++ cur) := by
  induction tok generalizing cur with
  | nil => rfl
  | cons c cs ih =>
    have hc := ht c (List.mem_cons_self c cs)
    rw [List.cons_append, fieldsAux, if_neg (by simp [hc]),
      ih (c :: cur) (fun x hx => ht x (List.mem_cons_of_mem c hx))]
    simp

/-- A non-empty run of non-space characters followed by a space is the first field. -/
theorem Fields_token_cons (tok : Str) (c : Char) (rest : Str) (hne : tok ≠ [])
    (ht : ∀ x ∈ tok, isSpace x = false) (hc : isSpace c = true) :
    Fields (tok ++ c :: rest) = tok :: Fields rest := by
  unfold Fields
  rw [fieldsAux_token tok (c :: rest) [] ht]
  simp [fieldsAux, hc, hne]

/-- A non-empty run of non-space characters is a single field. -/
theorem Fields_token (tok : Str) (hne : tok ≠ []) (ht : ∀ x ∈ tok, isSpace x = false) :
    Fields tok = [tok] := by
  have := fieldsAux_token tok [] [] ht
  unfold Fields
  simp only [List.append_nil] at this
  rw [this]
  simp [fieldsAux, hne]

theorem TrimLeft_of_head (c : Char) (s cutset : Str) (hc : c ∉ cutset) :
    TrimLeft (c :: s) cutset = c :: s := by
  unfold TrimLeft
  rw [List.dropWhile_cons_of_neg (by simpa using hc)]

theorem TrimRight_of_last (s : Str) (c : Char) (cutset : Str) (hc : c ∉ cutset) :
    TrimRight (s ++ [c]) cutset = s ++ [c] := by
  unfold TrimRight
  rw [List.reverse_append, List.reverse_singleton, List.singleton_append,
    List.dropWhile_cons_of_neg (by simpa using hc)]
  simp

/-- Trimming removes one trailing character of the cut set when the text before
it neither starts nor ends with a character of the cut set. -/
theorem Trim_strip_last (q : Str) (c : Char) (cutset : Str) (hc : c ∈ cutset)
    (hq : ∀ x ∈ q, x ∉ cutset) : Trim (q ++ [c]) cutset = q := by
  have hall : ∀ x ∈ q.reverse, ¬ ((fun y => cutset.contains y) x = true) := by
    intro x hx
    simpa using hq x (List.mem_reverse.mp hx)
  cases q with
  | nil => simp [Trim, TrimLeft, TrimRight, List.dropWhile, hc]
  | cons a as =>
    have ha : a ∉ cutset := hq a (List.mem_cons_self a as)
    unfold Trim
    rw [List.cons_append, TrimLeft_of_head a (as ++ [c]) cutset ha]
    unfold TrimRight
    rw [← List.cons_append, List.reverse_append, List.reverse_singleton, List.singleton_append,
      List.dropWhile_cons_of_pos (by simpa using hc)]
    cases hr : (a :: as).reverse with
    | nil => simp at hr
    | cons b bs =>
      have hb : b ∉ cutset := by
        have : b ∈ (a :: as).reverse := by rw [hr]; exact List.mem_cons_self b bs
        exact hq b (List.mem_reverse.mp this)
      rw [List.dropWhile_cons_of_neg (by simpa using hb), ← hr, List.reverse_reverse]

/-! ## Lemmas on well-formed lines -/

theorem avoids_iff (s : Str) (cs : List Char) : avoids s cs = true ↔ ∀ c ∈ s, c ∉ cs := by
  simp [avoids, List.all_eq_true]

theorem isToken_iff (s : Str) : isToken s = true ↔ s ≠ [] ∧ ∀ c ∈ s, isSpace c = false := by
  simp [isToken, List.all_eq_true, List.isEmpty_iff]

theorem idx_zero {α : Type} (a : α) (l : List α) : idx (a :: l) 0 = Run.ok a := by
  simp [idx]

theorem idx_succ {α : Type} (a : α) (l : List α) (n : Nat) : idx (a :: l) (n + 1) = idx l n := by
  simp [idx]

theorem idx_nil {α : Type} (n : Nat) : idx ([] : List α) n = Run.panic := by
  simp [idx]

/-- The fields of the metadata prefix are its five tokens. -/
theorem Fields_metaText (m d t host tag pid : Str) (hm : isToken m = true)
    (hd : isToken d = true) (ht : isToken t = true) (hh : isToken host = true)
    (htag : isToken tag = true) (hpid : pid.all (fun c => !isSpace c) = true) :
    Fields (metaText m d t host tag pid) = [m, d, t, host, tag ++ '[' :: pid] := by
  rw [isToken_iff] at hm hd ht hh htag
  have hsp : isSpace ' ' = true := by decide
  have hlast : ∀ x ∈ tag ++ '[' :: pid, isSpace x = false := by
    intro x hx
    rcases List.mem_append.mp hx with h | h
    · exact htag.2 x h
    · rcases List.mem_cons.mp h with h | h
      · rw [h]; decide
      · simpa using (List.all_eq_true.mp hpid) x h
  unfold metaText
  rw [Fields_token_cons m ' ' _ hm.1 hm.2 hsp, Fields_token_cons d ' ' _ hd.1 hd.2 hsp,
    Fields_token_cons t ' ' _ ht.1 ht.2 hsp, Fields_token_cons host ' ' _ hh.1 hh.2 hsp,
    Fields_token (tag ++ '[' :: pid) (by simp) hlast]

/-- Splitting a line at `"]: "` gives the metadata prefix and the body. -/
theorem Split_logLine (m d t host tag pid body : Str)
    (hmeta : ∀ c ∈ metaText m d t host tag pid, c ≠ ']')
    (hbody : Contains body metaSep = false) :
    Split (logLine m d t host tag pid body) metaSep = [metaText m d t host tag pid, body] :=
  Split_pieces ']' [':', ' '] metaSep rfl [metaText m d t host tag pid] body
    (by simpa using hmeta) (cut_of_not_contains metaSep body hbody)

theorem metaText_avoids (m d t host tag pid : Str) (h : headOK m d t host pid = true)
    (htag : avoids tag [']'] = true) : ∀ c ∈ metaText m d t host tag pid, c ≠ ']' := by
  simp only [headOK, Bool.and_eq_true, avoids_iff] at h
  rw [avoids_iff] at htag
  obtain ⟨⟨⟨⟨⟨_, hm⟩, hd⟩, ht⟩, hh⟩, hp⟩ := h
  intro c hc
  simp only [metaText, List.mem_append, List.mem_cons] at hc
  have key : ∀ s : Str, (∀ x ∈ s, x ∉ [']']) → c ∈ s → c ≠ ']' := by
    intro s hs hcs heq
    exact hs c hcs (by simp [heq])
  rcases hc with h | h | h | h | h | h | h | h | h | h | h
  · exact key m hm h
  · rw [h]; decide
  · exact key d hd h
  · rw [h]; decide
  · exact key t ht h
  · rw [h]; decide
  · exact key host hh h
  · rw [h]; decide
  · exact key tag htag h
  · rw [h]; decide
  · exact key pid hp h

/-- What every extractor computes first on a well-formed line: the two parts of
the line, the host name and the text handed to `time.Parse`. -/
theorem prologue (year : Nat) (m d t host tag pid body : Str)
    (h : headOK m d t host pid = true) (htag : isToken tag = true)
    (htag2 : avoids tag [']'] = true) (hbody : Contains body metaSep = false) :
    Split (logLine m d t host tag pid body) metaSep = [metaText m d t host tag pid, body] ∧
    Fields (metaText m d t host tag pid) = [m, d, t, host, tag ++ '[' :: pid] ∧
    dateString [m, d, t, host, tag ++ '[' :: pid] year = Join [m, d, t, fmtYear year] [' '] := by
  refine ⟨Split_logLine m d t host tag pid body (metaText_avoids m d t host tag pid h htag2) hbody,
    ?_, rfl⟩
  simp only [headOK, Bool.and_eq_true] at h
  obtain ⟨⟨⟨⟨⟨⟨⟨⟨⟨hm, hd⟩, ht⟩, hh⟩, hp⟩, _⟩, _⟩, _⟩, _⟩, _⟩ := h
  exact Fields_metaText m d t host tag pid hm hd ht hh htag hp

/-! ## The relay extractor on well-formed lines -/

theorem Split_eq_pair (k v : Str) (hk : ∀ c ∈ k, c ≠ '=') (hv : ∀ c ∈ v, c ≠ '=') :
    Split (k ++ ('=' :: v)) ['='] = [k, v] :=
  Split_pieces '=' [] ['='] rfl [k] v (by simpa using hk)
    (cut_of_not_contains ['='] v (not_contains_of_head '=' [] v hv))

theorem Contains_append_left (h : Char) (sep w v : Str) (hw : ∀ c ∈ w, c ≠ h) :
    Contains (w ++ v) (h :: sep) = Contains v (h :: sep) := by
  induction w with
  | nil => rfl
  | cons c cs ih =>
    have hc : c ≠ h := hw c (List.mem_cons_self c cs)
    rw [List.cons_append, Contains, hasPrefix_head_ne h c sep (cs ++ v) hc,
      ih (fun x hx => hw x (List.mem_cons_of_mem c hx))]
    rfl

theorem Trim_of_ends (a b : Char) (mid cutset : Str) (ha : a ∉ cutset) (hb : b ∉ cutset) :
    Trim (a :: (mid ++ [b])) cutset = a :: (mid ++ [b]) := by
  unfold Trim
  rw [TrimLeft_of_head a (mid ++ [b]) cutset ha, ← List.cons_append,
    TrimRight_of_last (a :: mid) b cutset hb]

theorem parseSMTPLine_wellformed (year : Nat) (m d t host pid Q A R D S T : Str)
    (hhead : headOK m d t host pid = true) (hdate : dateOK year m d t = true)
    (hbody : smtpBodyOK Q A R D S T = true) :
    parseSMTPLine year
      (logLine m d t host "postfix/smtp".toList pid (smtpBody Q A R D (S ++ ([' '] ++ T)))) =
    (if (ParseInt D).2.isSome then
      Run.ok (MailEvent.smtp
        { Component := "smtp".toList,
          DateTime := (timeParse (Join [m, d, t, fmtYear year] [' '])).1,
          Hostname := host, QueueID := "to=<".toList ++ A ++ ['>'],
          To := '<' :: (A ++ ['>']), Delay := (ParseInt D).1, Status := S,
          StatusMessage := T }, none)
     else if Contains R ['['] then
      (idx (Split R ['[']) 1).bind (fun r1 => Run.ok (MailEvent.smtp
        { Component := "smtp".toList,
          DateTime := (timeParse (Join [m, d, t, fmtYear year] [' '])).1,
          Hostname := host, QueueID := "to=<".toList ++ A ++ ['>'],
          To := '<' :: (A ++ ['>']), Relay := r1, Delay := (ParseInt D).1, Status := S,
          StatusMessage := T }, none))
     else
      Run.ok (MailEvent.smtp
        { Component := "smtp".toList,
          DateTime := (timeParse (Join [m, d, t, fmtYear year] [' '])).1,
          Hostname := host, QueueID := "to=<".toList ++ A ++ ['>'],
          To := '<' :: (A ++ ['>']), Relay := R, Delay := (ParseInt D).1, Status := S,
          StatusMessage := T }, none)) := by
  simp only [smtpBodyOK, Bool.and_eq_true, avoids_iff, Bool.not_eq_true'] at hbody
  obtain ⟨⟨⟨⟨⟨⟨⟨hQ, hA⟩, hR⟩, hD⟩, hS⟩, hT⟩, hV⟩, hB⟩ := hbody
  obtain ⟨hsplit, hfields, hds⟩ := prologue year m d t host "postfix/smtp".toList pid
    (smtpBody Q A R D (S ++ ([' '] ++ T))) hhead (by decide) (by decide) hB
  have hts : (timeParse (Join [m, d, t, fmtYear year] [' '])).2 = none := by
    simpa [dateOK] using hdate
  have hne : ∀ (s : Str) (x : Char), (∀ c ∈ s, c ∉ [x]) → ∀ c ∈ s, c ≠ x := by
    intro s x hs c hc heq
    exact hs c hc (by simp [heq])
  have hne2 : ∀ (s : Str) (x y : Char), (∀ c ∈ s, c ∉ [x, y]) →
      (∀ c ∈ s, c ≠ x) ∧ (∀ c ∈ s, c ≠ y) := by
    intro s x y hs
    constructor <;> intro c hc heq <;> exact hs c hc (by simp [heq])
  have hq : SplitN (smtpBody Q A R D (S ++ ([' '] ++ T))) [':', ' '] 2 =
      [Q, smtpPairs A R D (S ++ ([' '] ++ T))] :=
    SplitN_two ':' _ _ Q _ rfl (hne Q ':' hQ)
  have hp4 : cut [',', ' '] ("status=".toList ++ (S ++ ([' '] ++ T))) = none := by
    apply cut_of_not_contains
    rw [Contains_append_left ',' _ "status=".toList _ (by decide)]
    exact hV
  have hm : Split (smtpPairs A R D (S ++ ([' '] ++ T))) [',', ' '] =
      ["to=<".toList ++ A ++ ['>'], "relay=".toList ++ R, "delay=".toList ++ D,
        "status=".toList ++ (S ++ ([' '] ++ T))] := by
    refine Split_pieces ',' _ _ rfl
      ["to=<".toList ++ A ++ ['>'], "relay=".toList ++ R, "delay=".toList ++ D] _ ?_ hp4
    intro p hp c hc
    simp only [List.mem_cons, List.mem_singleton, List.not_mem_nil, or_false] at hp
    rcases hp with rfl | rfl | rfl
    · simp only [List.mem_append, List.mem_singleton] at hc
      rcases hc with (h | h) | h
      · exact (by decide : ∀ x ∈ "to=<".toList, x ≠ ',') c h
      · exact (hne2 A ',' '=' hA).1 c h
      · rw [h]; decide
    · simp only [List.mem_append] at hc
      rcases hc with h | h
      · exact (by decide : ∀ x ∈ "relay=".toList, x ≠ ',') c h
      · exact (hne2 R ',' '=' hR).1 c h
    · simp only [List.mem_append] at hc
      rcases hc with h | h
      · exact (by decide : ∀ x ∈ "delay=".toList, x ≠ ',') c h
      · exact (hne2 D ',' '=' hD).1 c h
  have hk1 : Split ("to=<".toList ++ A ++ ['>']) ['='] = ["to".toList, '<' :: (A ++ ['>'])] := by
    refine Split_eq_pair "to".toList ('<' :: (A ++ ['>'])) (by decide) ?_
    intro c hc
    simp only [List.mem_cons, List.mem_append, List.mem_singleton, List.not_mem_nil,
      or_false] at hc
    rcases hc with h | h | h
    · rw [h]; decide
    · exact (hne2 A ',' '=' hA).2 c h
    · rw [h]; decide
  have hk2 : Split ("relay=".toList ++ R) ['='] = ["relay".toList, R] :=
    Split_eq_pair "relay".toList R (by decide) (hne2 R ',' '=' hR).2
  have hk3 : Split ("delay=".toList ++ D) ['='] = ["delay".toList, D] :=
    Split_eq_pair "delay".toList D (by decide) (hne2 D ',' '=' hD).2
  have hk4 : Split ("status=".toList ++ (S ++ ([' '] ++ T))) ['='] =
      ["status".toList, S ++ ([' '] ++ T)] := by
    refine Split_eq_pair "status".toList (S ++ ([' '] ++ T)) (by decide) ?_
    intro c hc
    simp only [List.mem_cons, List.mem_append, List.mem_singleton, List.not_mem_nil,
      or_false] at hc
    rcases hc with h | h | h
    · exact (hne2 S ' ' '=' hS).2 c h
    · rw [h]; decide
    · exact hne T '=' hT c h
  have hst : SplitN (S ++ ([' '] ++ T)) [' '] 2 = [S, T] :=
    SplitN_two ' ' _ _ S T rfl (hne2 S ' ' '=' hS).1
  have htrim : Trim ("to=<".toList ++ A ++ ['>']) [':'] = "to=<".toList ++ A ++ ['>'] :=
    Trim_of_ends 't' '>' ("o=<".toList ++ A) [':'] (by decide) (by decide)
  obtain ⟨ts, hts2⟩ : ∃ ts, timeParse (Join [m, d, t, fmtYear year] [' ']) = (ts, none) :=
    ⟨(timeParse (Join [m, d, t, fmtYear year] [' '])).1, Prod.ext rfl hts⟩
  have hw : "to=<".toList ++ A ++ ['>'] ≠ "warning".toList := fun h =>
    absurd (List.head_eq_of_cons_eq (h : 't' :: _ = 'w' :: _)) (by decide)
  have hc : "to=<".toList ++ A ++ ['>'] ≠ "connect".toList := fun h =>
    absurd (List.head_eq_of_cons_eq (h : 't' :: _ = 'c' :: _)) (by decide)
  have hg1 : ∀ v1 v2 v3 v4 : Str, StrMap.get [("status".toList, v1), ("delay".toList, v2),
      ("relay".toList, v3), ("to".toList, v4)] "to".toList = v4 := fun _ _ _ _ => rfl
  have hg2 : ∀ v1 v2 v3 v4 : Str, StrMap.get [("status".toList, v1), ("delay".toList, v2),
      ("relay".toList, v3), ("to".toList, v4)] "relay".toList = v3 := fun _ _ _ _ => rfl
  have hg3 : ∀ v1 v2 v3 v4 : Str, StrMap.get [("status".toList, v1), ("delay".toList, v2),
      ("relay".toList, v3), ("to".toList, v4)] "delay".toList = v2 := fun _ _ _ _ => rfl
  have hg4 : ∀ v1 v2 v3 v4 : Str, StrMap.get [("status".toList, v1), ("delay".toList, v2),
      ("relay".toList, v3), ("to".toList, v4)] "status".toList = v1 := fun _ _ _ _ => rfl
  unfold parseSMTPLine
  simp only [hsplit, hfields, hds, hts2, hq, hm, htrim, idx_zero, idx_succ, Run.ok_bind,
    Run.pure_eq, kvPairs, hk1, hk2, hk3, hk4, hw, hc, if_false, hg1, hg2, hg3, hg4, hst,
    Option.isSome_none, Bool.false_eq_true]
  rfl

theorem cut_isSome_of_contains (sep s : Str) (hsep : sep ≠ []) (h : Contains s sep = true) :
    ∃ a b, cut sep s = some (a, b) := by
  induction s with
  | nil =>
    cases sep with
    | nil => exact absurd rfl hsep
    | cons x xs => simp [Contains, hasPrefix] at h
  | cons c cs ih =>
    by_cases hp : hasPrefix sep (c :: cs) = true
    · exact ⟨[], (c :: cs).drop sep.length, by simp [cut, hp]⟩
    · have hcs : Contains cs sep = true := by simpa [Contains, hp] using h
      obtain ⟨a, b, hab⟩ := ih hcs
      exact ⟨c :: a, b, by simp [cut, hp, hab]⟩

theorem genSplit_succ_ne_nil (sep s : Str) (n : Nat) :
    ∃ x xs, genSplit sep (n + 1) s = x :: xs := by
  cases n with
  | zero => exact ⟨s, [], rfl⟩
  | succ k =>
    cases hc : cut sep s with
    | none => exact ⟨s, [], by simp [genSplit, hc]⟩
    | some r => exact ⟨r.1, genSplit sep (k + 1) r.2, by simp [genSplit, hc]⟩

/-- When the separator occurs in the text, `Split` returns at least two pieces. -/
theorem idx_Split_one (s sep : Str) (hsep : sep ≠ []) (h : Contains s sep = true) :
    ∃ x, idx (Split s sep) 1 = Run.ok x := by
  obtain ⟨a, b, hab⟩ := cut_isSome_of_contains sep s hsep h
  cases s with
  | nil =>
    cases sep with
    | nil => exact absurd rfl hsep
    | cons x xs => simp [Contains, hasPrefix] at h
  | cons c cs =>
    obtain ⟨x, xs, hx⟩ := genSplit_succ_ne_nil sep b cs.length
    refine ⟨x, ?_⟩
    unfold Split
    rw [if_neg hsep, List.length_cons, genSplit, hab]
    simp only [hx, idx_succ, idx_zero]

theorem contains_of_cut (sep s : Str) (r : Str × Str) (h : cut sep s = some r) :
    Contains s sep = true := by
  cases hc : Contains s sep with
  | true => rfl
  | false => rw [cut_of_not_contains sep s hc] at h; cases h

/-! ## Four-digit years -/

theorem isDigit_digitChar (k : Nat) (hk : k < 10) :
    isDigit (Nat.digitChar k) = true ∧ digitVal (Nat.digitChar k) = k := by
  interval_cases k <;> exact ⟨rfl, rfl⟩

theorem fmtYear_four (y : Nat) (h1 : 1000 ≤ y) (h2 : y ≤ 9999) :
    fmtYear y = [Nat.digitChar (y / 1000), Nat.digitChar (y / 100 % 10),
      Nat.digitChar (y / 10 % 10), Nat.digitChar (y % 10)] := by
  have e : y + 1 = (y - 3) + 1 + 1 + 1 + 1 := by omega
  have a1 : y / 10 ≠ 0 := by omega
  have a2 : y / 10 / 10 ≠ 0 := by omega
  have a3 : y / 10 / 10 / 10 ≠ 0 := by omega
  have a4 : y / 10 / 10 / 10 / 10 = 0 := by omega
  have b1 : y / 10 / 10 / 10 % 10 = y / 1000 := by omega
  have b2 : y / 10 / 10 % 10 = y / 100 % 10 := by omega
  unfold fmtYear Nat.toDigits
  rw [e]
  simp only [Nat.toDigitsCore, a1, a2, a3, a4, if_false, if_true, b1, b2]

theorem timeParseCore_sample (a b c d : Char) (ha : isDigit a = true) (hb : isDigit b = true)
    (hc : isDigit c = true) (hd : isDigit d = true) :
    timeParseCore ("Jan 5 10:24:00 ".toList ++ [a, b, c, d]) =
      some ⟨digitsVal [a, b, c, d], 1, 5, 10, 24, 0, 0⟩ := by
  have hsp : (a == ' ') = false := by
    cases h : a == ' ' with
    | false => rfl
    | true =>
      rw [beq_iff_eq] at h
      rw [h] at ha
      exact absurd ha (by decide)
  have h1 : timeParseCore ("Jan 5 10:24:00 ".toList ++ [a, b, c, d]) =
      match yearPart (List.dropWhile (fun x => x == ' ') [a, b, c, d]) with
      | none => none
      | some year =>
        if 5 < 1 || daysIn (0 + 1) year < 5 then none
        else some ⟨year, 0 + 1, 5, 10, 24, 0, 0⟩ := rfl
  rw [h1, List.dropWhile_cons_of_neg (by simp [hsp])]
  simp [yearPart, ha, hb, hc, hd, daysIn]

/-! ## The queue-manager extractor on well-formed lines -/

theorem Trim_noop (s cutset : Str) (hs : ∀ x ∈ s, x ∉ cutset) : Trim s cutset = s := by
  have hl : TrimLeft s cutset = s := by
    cases s with
    | nil => rfl
    | cons a as => exact TrimLeft_of_head a as cutset (hs a (List.mem_cons_self a as))
  unfold Trim
  rw [hl]
  unfold TrimRight
  cases hr : s.reverse with
  | nil => simpa using hr
  | cons b bs =>
    have hb : b ∉ cutset := by
      have : b ∈ s.reverse := by rw [hr]; exact List.mem_cons_self b bs
      exact hs b (List.mem_reverse.mp this)
    rw [List.dropWhile_cons_of_neg (by simpa using hb), ← hr, List.reverse_reverse]

theorem queueId_facts (Q : Str) (hQ : queueIdOK Q = true) :
    (∀ x ∈ Q ++ [':'], isSpace x = false) ∧ (∀ x ∈ Q, x ∉ [':']) ∧ (∀ x ∈ Q, x ≠ ']') := by
  simp only [queueIdOK, Bool.and_eq_true, avoids_iff, List.all_eq_true] at hQ
  refine ⟨?_, ?_, ?_⟩
  · intro x hx
    rcases List.mem_append.mp hx with h | h
    · simpa using hQ.1 x h
    · rw [List.mem_singleton.mp h]; decide
  · intro x hx hmem
    exact hQ.2 x hx (by simp at hmem; simp [hmem])
  · intro x hx heq
    exact hQ.2 x hx (by simp [heq])

theorem parseQmgrLine_removed (year : Nat) (m d t host pid Q : Str)
    (hhead : headOK m d t host pid = true) (hdate : dateOK year m d t = true)
    (hQ : queueIdOK Q = true) :
    parseQmgrLine year (logLine m d t host "postfix/qmgr".toList pid (qmgrRemovedBody Q)) =
      Run.ok (MailEvent.qmgr
        { Component := "qmgr".toList,
          DateTime := (timeParse (Join [m, d, t, fmtYear year] [' '])).1,
          Sequence := 1, Hostname := host, QueueID := Q }, none) := by
  obtain ⟨hq1, hq2, hq3⟩ := queueId_facts Q hQ
  have hB : Contains (qmgrRemovedBody Q) metaSep = false := by
    apply not_contains_of_head
    intro c hc
    simp only [qmgrRemovedBody, List.mem_append, List.mem_cons, List.mem_singleton,
      List.not_mem_nil, or_false] at hc
    rcases hc with (h | h) | h | h
    · exact hq3 c h
    · rw [h]; decide
    · rw [h]; decide
    · exact (by decide : ∀ x ∈ "removed".toList, x ≠ ']') c h
  obtain ⟨hsplit, hfields, hds⟩ := prologue year m d t host "postfix/qmgr".toList pid
    (qmgrRemovedBody Q) hhead (by decide) (by decide) hB
  have hts : (timeParse (Join [m, d, t, fmtYear year] [' '])).2 = none := by
    simpa [dateOK] using hdate
  obtain ⟨ts, hts2⟩ : ∃ ts, timeParse (Join [m, d, t, fmtYear year] [' ']) = (ts, none) :=
    ⟨(timeParse (Join [m, d, t, fmtYear year] [' '])).1, Prod.ext rfl hts⟩
  have hf : Fields (qmgrRemovedBody Q) = [Q ++ [':'], "removed".toList] := by
    unfold qmgrRemovedBody
    rw [Fields_token_cons (Q ++ [':']) ' ' _ (by simp) hq1 (by decide),
      Fields_token "removed".toList (by decide) (by decide)]
  have htrim : Trim (Q ++ [':']) [':'] = Q := Trim_strip_last Q ':' [':'] (by simp) hq2
  unfold parseQmgrLine
  simp only [hsplit, hfields, hds, hts2, hf, htrim, idx_zero, idx_succ, Run.ok_bind,
    Run.pure_eq, Option.isSome_none, Bool.false_eq_true, if_false, if_true]

theorem parseQmgrLine_sizes (year : Nat) (m d t host pid Q F S N rest : Str)
    (hhead : headOK m d t host pid = true) (hdate : dateOK year m d t = true)
    (hQ : queueIdOK Q = true) (hbody : qmgrSizeOK Q F S N rest = true) :
    parseQmgrLine year
      (logLine m d t host "postfix/qmgr".toList pid (qmgrSizeBody Q F S N rest)) =
    (if (ParseInt S).2.isSome then
      Run.ok (MailEvent.qmgr
        { Component := "qmgr".toList,
          DateTime := (timeParse (Join [m, d, t, fmtYear year] [' '])).1,
          Hostname := host, QueueID := Q, Size := (ParseInt S).1 }, (ParseInt S).2)
     else
      Run.ok (MailEvent.qmgr
        { Component := "qmgr".toList,
          DateTime := (timeParse (Join [m, d, t, fmtYear year] [' '])).1,
          Hostname := host, QueueID := Q, Size := (ParseInt S).1,
          Nrcpt := (ParseInt N).1 }, (ParseInt N).2)) := by
  obtain ⟨hq1, hq2, hq3⟩ := queueId_facts Q hQ
  simp only [qmgrSizeOK, Bool.and_eq_true, avoids_iff, Bool.not_eq_true',
    List.all_eq_true] at hbody
  obtain ⟨⟨⟨⟨⟨hF, hS⟩, hN⟩, hS2⟩, hN2⟩, hB⟩ := hbody
  obtain ⟨hsplit, hfields, hds⟩ := prologue year m d t host "postfix/qmgr".toList pid
    (qmgrSizeBody Q F S N rest) hhead (by decide) (by decide) hB
  have hts : (timeParse (Join [m, d, t, fmtYear year] [' '])).2 = none := by
    simpa [dateOK] using hdate
  obtain ⟨ts, hts2⟩ : ∃ ts, timeParse (Join [m, d, t, fmtYear year] [' ']) = (ts, none) :=
    ⟨(timeParse (Join [m, d, t, fmtYear year] [' '])).1, Prod.ext rfl hts⟩
  have hsp : isSpace ' ' = true := by decide
  have ht1 : ∀ x ∈ "from=<".toList ++ F ++ ['>', ','], isSpace x = false := by
    intro x hx
    simp only [List.mem_append, List.mem_cons, List.mem_singleton, List.not_mem_nil,
      or_false] at hx
    rcases hx with (h | h) | h | h
    · exact (by decide : ∀ x ∈ "from=<".toList, isSpace x = false) x h
    · simpa using hF x h
    · rw [h]; decide
    · rw [h]; decide
  have ht2 : ∀ x ∈ "size=".toList ++ S ++ [','], isSpace x = false := by
    intro x hx
    simp only [List.mem_append, List.mem_singleton] at hx
    rcases hx with (h | h) | h
    · exact (by decide : ∀ x ∈ "size=".toList, isSpace x = false) x h
    · simpa using hS x h
    · rw [h]; decide
  have ht3 : ∀ x ∈ "nrcpt=".toList ++ N, isSpace x = false := by
    intro x hx
    rcases List.mem_append.mp hx with h | h
    · exact (by decide : ∀ x ∈ "nrcpt=".toList, isSpace x = false) x h
    · simpa using hN x h
  have hf : ∃ more, Fields (qmgrSizeBody Q F S N rest) =
      (Q ++ [':']) :: ("from=<".toList ++ F ++ ['>', ',']) :: ("size=".toList ++ S ++ [',']) ::
        ("nrcpt=".toList ++ N) :: more := by
    refine ⟨Fields rest, ?_⟩
    unfold qmgrSizeBody
    rw [Fields_token_cons (Q ++ [':']) ' ' _ (by simp) hq1 hsp,
      Fields_token_cons _ ' ' _ (by simp) ht1 hsp,
      Fields_token_cons _ ' ' _ (by simp) ht2 hsp,
      Fields_token_cons ("nrcpt=".toList ++ N) ' ' _ (by simp) ht3 hsp]
  obtain ⟨more, hf⟩ := hf
  have htrim : Trim (Q ++ [':']) [':'] = Q := Trim_strip_last Q ':' [':'] (by simp) hq2
  have hnr : "from=<".toList ++ F ++ ['>', ','] ≠ "removed".toList := fun h =>
    absurd (List.head_eq_of_cons_eq (h : 'f' :: _ = 'r' :: _)) (by decide)
  have hSc : ∀ c ∈ S, c ≠ ',' := fun c hc heq => hS2 c hc (by simp [heq])
  have hSe : ∀ c ∈ S, c ≠ '=' := fun c hc heq => hS2 c hc (by simp [heq])
  have hNc : ∀ c ∈ N, c ≠ ',' := fun c hc heq => hN2 c hc (by simp [heq])
  have hNe : ∀ c ∈ N, c ≠ '=' := fun c hc heq => hN2 c hc (by simp [heq])
  have htz : Trim ("size=".toList ++ S ++ [',']) [','] = "size=".toList ++ S := by
    refine Trim_strip_last ("size=".toList ++ S) ',' [','] (by simp) ?_
    intro x hx hmem
    rcases List.mem_append.mp hx with h | h
    · exact (by decide : ∀ x ∈ "size=".toList, x ∉ [',']) x h hmem
    · exact hSc x h (by simpa using hmem)
  have htn : Trim ("nrcpt=".toList ++ N) [','] = "nrcpt=".toList ++ N := by
    refine Trim_noop _ _ ?_
    intro x hx hmem
    rcases List.mem_append.mp hx with h | h
    · exact (by decide : ∀ x ∈ "nrcpt=".toList, x ∉ [',']) x h hmem
    · exact hNc x h (by simpa using hmem)
  have hk1 : Split ("size=".toList ++ S) ['='] = ["size".toList, S] :=
    Split_eq_pair "size".toList S (by decide) hSe
  have hk2 : Split ("nrcpt=".toList ++ N) ['='] = ["nrcpt".toList, N] :=
    Split_eq_pair "nrcpt".toList N (by decide) hNe
  unfold parseQmgrLine
  simp only [hsplit, hfields, hds, hts2, hf, htrim, hnr, htz, htn, hk1, hk2, idx_zero, idx_succ,
    Run.ok_bind, Run.pure_eq, Option.isSome_none, Bool.false_eq_true, if_false]
  by_cases h1 : (ParseInt S).2.isSome = true
  · simp only [h1, if_true]
  · simp only [h1, if_false]
    by_cases h2 : (ParseInt N).2.isSome = true
    · simp only [h2, if_true]
    · simp only [h2, Bool.false_eq_true, if_false]

/-! ## The recency filter and the accessors -/

/-- The test that `GetRecords` applies to an element of `Events`. -/
theorem getRecordsLoop_filter (now : Time) (ma : Int) (es : List (Option MailEvent))
    (hne : ∀ x ∈ es, x ≠ none) (i : Nat) (elist : List (Option MailEvent)) :
    getRecordsLoop (fun _ => now) ma i es elist =
      Run.ok (elist ++ es.filter (withinWindow now ma)) := by
  induction es generalizing i elist with
  | nil => simp [getRecordsLoop]
  | cons x xs ih =>
    have hx : x ≠ none := hne x (List.mem_cons_self x xs)
    have hxs : ∀ y ∈ xs, y ≠ none := fun y hy => hne y (List.mem_cons_of_mem x hy)
    cases x with
    | none => exact absurd rfl hx
    | some e =>
      by_cases h : Since now e.GetEventTime < ma
      · simp [getRecordsLoop, h, ih hxs, withinWindow]
      · simp [getRecordsLoop, h, ih hxs, withinWindow]

theorem Since_lt_iff (now t : Time) (d : Int) (h1 : minDuration < d) (h2 : d ≤ maxDuration) :
    Since now t < d ↔ now.nanos - t.nanos < d := by
  unfold Since Time.Sub
  simp only
  split
  · constructor
    · intro _; omega
    · intro _; exact h1
  · split
    · constructor
      · intro h; omega
      · intro h; omega
    · exact Iff.rfl

theorem GetRecords_filter (now : Time) (ma : Int) (l : LogStore)
    (hne : ∀ x ∈ l.Events, x ≠ none) :
    GetRecords (fun _ => now) l ma = Run.ok (l.Events.filter (withinWindow now ma), l) := by
  unfold GetRecords
  rw [getRecordsLoop_filter now ma l.Events hne 0 []]
  rfl
/-! ## Every extractor names its subsystem -/

theorem Run.of_bind {α β : Type} {P : β → Prop} (x : Run α) (f : α → Run β)
    (h : ∀ a, ∀ v, f a = Run.ok v → P v) : ∀ v, (x >>= f) = Run.ok v → P v := by
  intro v hv
  cases x with
  | panic => cases hv
  | ok a => exact h a v hv

theorem Run.of_ok {β : Type} {P : β → Prop} (b : β) (h : P b) :
    ∀ v, Run.ok b = Run.ok v → P v := by
  intro v hv
  cases hv
  exact h

theorem Run.of_pure {β : Type} {P : β → Prop} (b : β) (h : P b) :
    ∀ v, (pure b : Run β) = Run.ok v → P v := Run.of_ok b h

theorem Run.of_ite {β : Type} {P : β → Prop} (c : Prop) [Decidable c] (x y : Run β)
    (hx : ∀ v, x = Run.ok v → P v) (hy : ∀ v, y = Run.ok v → P v) :
    ∀ v, (if c then x else y) = Run.ok v → P v := by
  intro v hv
  split at hv
  · exact hx v hv
  · exact hy v hv

theorem readSMTPdLine_component (year : Nat) (l : Str) :
    ∀ v, readSMTPdLine year l = Run.ok v → v.1.GetComponent = "smtpd".toList := by
  unfold readSMTPdLine
  dsimp only
  repeat' (first
    | exact Run.of_ok _ rfl
    | exact Run.of_pure _ rfl
    | exact Run.of_pure _ (by dsimp only [MailEvent.GetComponent]; split_ifs <;> rfl)
    | (refine Run.of_bind _ _ ?_; intro _)
    | (refine Run.of_ite _ _ _ ?_ ?_))

theorem parsePickupLine_component (year : Nat) (l : Str) :
    ∀ v, parsePickupLine year l = Run.ok v → v.1.GetComponent = "pickup".toList := by
  unfold parsePickupLine
  dsimp only
  repeat' (first
    | exact Run.of_ok _ rfl
    | exact Run.of_pure _ rfl
    | (refine Run.of_bind _ _ ?_; intro _)
    | (refine Run.of_ite _ _ _ ?_ ?_))

theorem parseCleanupLine_component (year : Nat) (l : Str) :
    ∀ v, parseCleanupLine year l = Run.ok v → v.1.GetComponent = "cleanup".toList := by
  unfold parseCleanupLine
  dsimp only
  repeat' (first
    | exact Run.of_ok _ rfl
    | exact Run.of_pure _ rfl
    | (refine Run.of_bind _ _ ?_; intro _)
    | (refine Run.of_ite _ _ _ ?_ ?_))

theorem parseQmgrLine_component (year : Nat) (l : Str) :
    ∀ v, parseQmgrLine year l = Run.ok v → v.1.GetComponent = "qmgr".toList := by
  unfold parseQmgrLine
  dsimp only
  repeat' (first
    | exact Run.of_ok _ rfl
    | exact Run.of_pure _ rfl
    | (refine Run.of_bind _ _ ?_; intro _)
    | (refine Run.of_ite _ _ _ ?_ ?_))

theorem parseSMTPLine_component (year : Nat) (l : Str) :
    ∀ v, parseSMTPLine year l = Run.ok v → v.1.GetComponent = "smtp".toList := by
  unfold parseSMTPLine
  dsimp only
  repeat' (first
    | exact Run.of_ok _ rfl
    | exact Run.of_pure _ rfl
    | (refine Run.of_bind _ _ ?_; intro _)
    | (refine Run.of_ite _ _ _ ?_ ?_))

theorem parseDeliveryLine_component (parseFloat : Str → Float64 × Option GoError) (year : Nat)
    (l : Str) :
    ∀ v, parseDeliveryLine parseFloat year l = Run.ok v →
      v.1.GetComponent = "local".toList := by
  unfold parseDeliveryLine
  dsimp only
  repeat' (first
    | exact Run.of_ok _ rfl
    | exact Run.of_pure _ rfl
    | (refine Run.of_bind _ _ ?_; intro _)
    | (refine Run.of_ite _ _ _ ?_ ?_))
/-! ## `strconv.ParseInt` on decimal integers -/

theorem foldl_digits_ge (cs : Str) (n : Nat) :
    n ≤ cs.foldl (fun n c => n * 10 + digitVal c) n := by
  induction cs generalizing n with
  | nil => exact Nat.le_refl n
  | cons c cs ih =>
    have := ih (n * 10 + digitVal c)
    simp only [List.foldl_cons]
    omega

theorem isDigit_facts (c : Char) (h : isDigit c = true) :
    (c == '_') = false ∧ digitVal c < 10 := by
  constructor
  · cases hc : c == '_' with
    | false => rfl
    | true =>
      rw [beq_iff_eq] at hc
      rw [hc] at h
      exact absurd h (by decide)
  · simp only [isDigit, Bool.and_eq_true, decide_eq_true_eq] at h
    unfold digitVal
    omega

theorem parseUintLoop_digits (cs : Str) (n : Nat) (hd : ∀ c ∈ cs, isDigit c = true)
    (hlt : cs.foldl (fun n c => n * 10 + digitVal c) n < 2 ^ 63) :
    parseUintLoop 10 ((2 ^ 64 - 1) / 10 + 1) (2 ^ 64 - 1) cs n =
      (cs.foldl (fun n c => n * 10 + digitVal c) n, none) := by
  induction cs generalizing n with
  | nil => rfl
  | cons c cs ih =>
    have hc := hd c (List.mem_cons_self c cs)
    obtain ⟨hu, hv⟩ := isDigit_facts c hc
    have hge := foldl_digits_ge cs (n * 10 + digitVal c)
    simp only [List.foldl_cons] at hlt ⊢
    have h1 : ¬ (10 ≤ digitVal c) := by omega
    have h2 : ¬ ((2 ^ 64 - 1) / 10 + 1 ≤ n) := by
      have : (2 : Nat) ^ 63 < ((2 ^ 64 - 1) / 10 + 1) * 10 := by decide
      omega
    have h3 : ¬ (2 ^ 64 - 1 < n * 10 + digitVal c) := by
      have : (2 : Nat) ^ 63 ≤ 2 ^ 64 - 1 := by decide
      omega
    rw [parseUintLoop]
    simp only [hu, hc, Bool.false_eq_true, if_false, if_true, h1, h2, h3]
    exact ih (n * 10 + digitVal c) (fun x hx => hd x (List.mem_cons_of_mem c hx)) hlt

/-- A decimal integer without a leading zero and below `2^63` is read by
`strconv.ParseInt` as its decimal value, without error. -/
theorem ParseInt_decimal (s : Str) (h : decimalOK s = true) :
    ParseInt s = ((digitsVal s : Int), none) := by
  simp only [decimalOK, Bool.and_eq_true, Bool.or_eq_true, decide_eq_true_eq,
    List.all_eq_true, Bool.not_eq_true', List.isEmpty_eq_false] at h
  obtain ⟨⟨⟨hne, hd⟩, hz⟩, hlt⟩ := h
  cases s with
  | nil => exact absurd rfl hne
  | cons c0 rest =>
    have hc0 := hd c0 (List.mem_cons_self c0 rest)
    have hsign : (c0 == '+' || c0 == '-') = false := by
      cases hc : (c0 == '+' || c0 == '-') with
      | false => rfl
      | true =>
        simp only [Bool.or_eq_true, beq_iff_eq] at hc
        rcases hc with hc | hc <;> rw [hc] at hc0 <;> exact absurd hc0 (by decide)
    have hneg : (c0 == '-') = false := by
      cases hc : c0 == '-' with
      | false => rfl
      | true => simp [hc] at hsign
    have hund : (c0 :: rest).contains '_' = false := by
      cases hc : (c0 :: rest).contains '_' with
      | false => rfl
      | true =>
        have hm : '_' ∈ c0 :: rest := by simpa using hc
        exact absurd (hd '_' hm) (by decide)
    have hU : ParseUint (c0 :: rest) = (digitsVal (c0 :: rest), none) := by
      by_cases hzero : c0 = '0'
      · subst hzero
        have hr : rest = [] := by
          rcases hz with hz | hz
          · simpa using hz
          · simp at hz
        subst hr
        decide
      · have hz0 : (c0 == '0') = false := by simpa using hzero
        have hloop := parseUintLoop_digits (c0 :: rest) 0 hd (by simpa [digitsVal] using hlt)
        unfold ParseUint
        simp only [hz0, Bool.false_eq_true, if_false, hloop, hund, Bool.false_and]
        rfl
    have hp : ¬ c0 = '+' := by
      intro hc
      rw [hc] at hc0
      exact absurd hc0 (by decide)
    have hm : ¬ c0 = '-' := by
      intro hc
      rw [hc] at hc0
      exact absurd hc0 (by decide)
    have hcut : ¬ ((2 : Nat) ^ 63 ≤ digitsVal (c0 :: rest)) := by omega
    have hplus : (c0 == '+') = false := by simpa using hp
    unfold ParseInt
    simp only [hplus, hneg, Bool.or_self, Bool.false_eq_true, if_false, hU, Bool.not_false,
      Bool.true_and, Bool.false_and, decide_eq_true_eq, hcut, reduceCtorEq]

/-! ## Queue-manager lines with `size=` and `nrcpt=` pairs, any tail -/

theorem Fields_token_tail (tok tail : Str) (hne : tok ≠ [])
    (ht : ∀ x ∈ tok, isSpace x = false) (htail : tailOK tail = true) :
    ∃ more, Fields (tok ++ tail) = tok :: more := by
  cases tail with
  | nil => exact ⟨[], by rw [List.append_nil]; exact Fields_token tok hne ht⟩
  | cons c r => exact ⟨Fields r, Fields_token_cons tok c r hne ht htail⟩

theorem parseQmgrLine_pairs (year : Nat) (m d t host pid Q F S N tail : Str)
    (hhead : headOK m d t host pid = true) (hdate : dateOK year m d t = true)
    (hQ : queueIdOK Q = true) (hbody : qmgrPairsOK Q F S N tail = true) :
    parseQmgrLine year
      (logLine m d t host "postfix/qmgr".toList pid (qmgrPairsBody Q F S N tail)) =
    (if (ParseInt S).2.isSome then
      Run.ok (MailEvent.qmgr
        { Component := "qmgr".toList,
          DateTime := (timeParse (Join [m, d, t, fmtYear year] [' '])).1,
          Hostname := host, QueueID := Q, Size := (ParseInt S).1 }, (ParseInt S).2)
     else
      Run.ok (MailEvent.qmgr
        { Component := "qmgr".toList,
          DateTime := (timeParse (Join [m, d, t, fmtYear year] [' '])).1,
          Hostname := host, QueueID := Q, Size := (ParseInt S).1,
          Nrcpt := (ParseInt N).1 }, (ParseInt N).2)) := by
  obtain ⟨hq1, hq2, hq3⟩ := queueId_facts Q hQ
  simp only [qmgrPairsOK, Bool.and_eq_true, avoids_iff, Bool.not_eq_true',
    List.all_eq_true] at hbody
  obtain ⟨⟨⟨⟨⟨⟨hF, hS⟩, hN⟩, hS2⟩, hN2⟩, htail⟩, hB⟩ := hbody
  obtain ⟨hsplit, hfields, hds⟩ := prologue year m d t host "postfix/qmgr".toList pid
    (qmgrPairsBody Q F S N tail) hhead (by decide) (by decide) hB
  have hts : (timeParse (Join [m, d, t, fmtYear year] [' '])).2 = none := by
    simpa [dateOK] using hdate
  obtain ⟨ts, hts2⟩ : ∃ ts, timeParse (Join [m, d, t, fmtYear year] [' ']) = (ts, none) :=
    ⟨(timeParse (Join [m, d, t, fmtYear year] [' '])).1, Prod.ext rfl hts⟩
  have hsp : isSpace ' ' = true := by decide
  have ht1 : ∀ x ∈ "from=<".toList ++ F ++ ['>', ','], isSpace x = false := by
    intro x hx
    simp only [List.mem_append, List.mem_cons, List.mem_singleton, List.not_mem_nil,
      or_false] at hx
    rcases hx with (h | h) | h | h
    · exact (by decide : ∀ x ∈ "from=<".toList, isSpace x = false) x h
    · simpa using hF x h
    · rw [h]; decide
    · rw [h]; decide
  have ht2 : ∀ x ∈ "size=".toList ++ S ++ [','], isSpace x = false := by
    intro x hx
    simp only [List.mem_append, List.mem_singleton] at hx
    rcases hx with (h | h) | h
    · exact (by decide : ∀ x ∈ "size=".toList, isSpace x = false) x h
    · simpa using hS x h
    · rw [h]; decide
  have ht3 : ∀ x ∈ "nrcpt=".toList ++ N, isSpace x = false := by
    intro x hx
    rcases List.mem_append.mp hx with h | h
    · exact (by decide : ∀ x ∈ "nrcpt=".toList, isSpace x = false) x h
    · simpa using hN x h
  have hf : ∃ more, Fields (qmgrPairsBody Q F S N tail) =
      (Q ++ [':']) :: ("from=<".toList ++ F ++ ['>', ',']) :: ("size=".toList ++ S ++ [',']) ::
        ("nrcpt=".toList ++ N) :: more := by
    obtain ⟨more, hm⟩ := Fields_token_tail ("nrcpt=".toList ++ N) tail (by simp) ht3 htail
    refine ⟨more, ?_⟩
    unfold qmgrPairsBody
    rw [Fields_token_cons (Q ++ [':']) ' ' _ (by simp) hq1 hsp,
      Fields_token_cons _ ' ' _ (by simp) ht1 hsp,
      Fields_token_cons _ ' ' _ (by simp) ht2 hsp, hm]
  obtain ⟨more, hf⟩ := hf
  have htrim : Trim (Q ++ [':']) [':'] = Q := Trim_strip_last Q ':' [':'] (by simp) hq2
  have hnr : "from=<".toList ++ F ++ ['>', ','] ≠ "removed".toList := fun h =>
    absurd (List.head_eq_of_cons_eq (h : 'f' :: _ = 'r' :: _)) (by decide)
  have hSc : ∀ c ∈ S, c ≠ ',' := fun c hc heq => hS2 c hc (by simp [heq])
  have hSe : ∀ c ∈ S, c ≠ '=' := fun c hc heq => hS2 c hc (by simp [heq])
  have hNc : ∀ c ∈ N, c ≠ ',' := fun c hc heq => hN2 c hc (by simp [heq])
  have hNe : ∀ c ∈ N, c ≠ '=' := fun c hc heq => hN2 c hc (by simp [heq])
  have htz : Trim ("size=".toList ++ S ++ [',']) [','] = "size=".toList ++ S := by
    refine Trim_strip_last ("size=".toList ++ S) ',' [','] (by simp) ?_
    intro x hx hmem
    rcases List.mem_append.mp hx with h | h
    · exact (by decide : ∀ x ∈ "size=".toList, x ∉ [',']) x h hmem
    · exact hSc x h (by simpa using hmem)
  have htn : Trim ("nrcpt=".toList ++ N) [','] = "nrcpt=".toList ++ N := by
    refine Trim_noop _ _ ?_
    intro x hx hmem
    rcases List.mem_append.mp hx with h | h
    · exact (by decide : ∀ x ∈ "nrcpt=".toList, x ∉ [',']) x h hmem
    · exact hNc x h (by simpa using hmem)
  have hk1 : Split ("size=".toList ++ S) ['='] = ["size".toList, S] :=
    Split_eq_pair "size".toList S (by decide) hSe
  have hk2 : Split ("nrcpt=".toList ++ N) ['='] = ["nrcpt".toList, N] :=
    Split_eq_pair "nrcpt".toList N (by decide) hNe
  unfold parseQmgrLine
  simp only [hsplit, hfields, hds, hts2, hf, htrim, hnr, htz, htn, hk1, hk2, idx_zero, idx_succ,
    Run.ok_bind, Run.pure_eq, Option.isSome_none, Bool.false_eq_true, if_false]
  by_cases h1 : (ParseInt S).2.isSome = true
  · simp only [h1, if_true]
  · simp only [h1, if_false]
    by_cases h2 : (ParseInt N).2.isSome = true
    · simp only [h2, if_true]
    · simp only [h2, Bool.false_eq_true, if_false]

/-! ## The connection extractor on `connect from` lines -/

theorem Contains_infix (a sub b : Str) : Contains (a ++ (sub ++ b)) sub = true := by
  induction a with
  | nil =>
    rw [List.nil_append]
    cases h : sub ++ b with
    | nil =>
      have hs : sub = [] := (List.append_eq_nil.mp h).1
      rw [hs]
      rfl
    | cons c cs =>
      rw [Contains, ← h, hasPrefix_self_append]
      rfl
  | cons c cs ih =>
    rw [List.cons_append, Contains, ih, Bool.or_true]

theorem readSMTPdLine_conn (year : Nat) (m d t host pid verb N IP tail : Str)
    (hhead : headOK m d t host pid = true) (hdate : dateOK year m d t = true)
    (hverb : isToken verb = true) (hbody : smtpdConnOK verb N IP tail = true)
    (hcf : Contains (logLine m d t host "postfix/smtpd".toList pid (smtpdConnBody verb N IP tail))
      "connect from".toList = true) :
    readSMTPdLine year
      (logLine m d t host "postfix/smtpd".toList pid (smtpdConnBody verb N IP tail)) =
    Run.ok (MailEvent.smtpd
      { Component := "smtpd".toList,
        DateTime := (timeParse (Join [m, d, t, fmtYear year] [' '])).1,
        RecordType := if verb = "disconnect".toList then 1 else 0,
        ClientName := N, ClientIP := IP, Hostname := host }, none) := by
  simp only [smtpdConnOK, Bool.and_eq_true, avoids_iff, Bool.not_eq_true',
    List.all_eq_true] at hbody
  obtain ⟨⟨⟨⟨⟨hN, hIP⟩, hN2⟩, hIP2⟩, htail⟩, hB⟩ := hbody
  obtain ⟨hsplit, hfields, hds⟩ := prologue year m d t host "postfix/smtpd".toList pid
    (smtpdConnBody verb N IP tail) hhead (by decide) (by decide) hB
  have hts : (timeParse (Join [m, d, t, fmtYear year] [' '])).2 = none := by
    simpa [dateOK] using hdate
  obtain ⟨ts, hts2⟩ : ∃ ts, timeParse (Join [m, d, t, fmtYear year] [' ']) = (ts, none) :=
    ⟨(timeParse (Join [m, d, t, fmtYear year] [' '])).1, Prod.ext rfl hts⟩
  have hsp : isSpace ' ' = true := by decide
  rw [isToken_iff] at hverb
  have ht3 : ∀ x ∈ N ++ '[' :: (IP ++ [']']), isSpace x = false := by
    intro x hx
    simp only [List.mem_append, List.mem_cons, List.mem_singleton, List.not_mem_nil,
      or_false] at hx
    rcases hx with h | h | h | h
    · simpa using hN x h
    · rw [h]; decide
    · simpa using hIP x h
    · rw [h]; decide
  have hf : ∃ more, Fields (smtpdConnBody verb N IP tail) =
      verb :: "from".toList :: (N ++ '[' :: (IP ++ [']'])) :: more := by
    obtain ⟨more, hm⟩ := Fields_token_tail (N ++ '[' :: (IP ++ [']'])) tail (by simp) ht3 htail
    refine ⟨more, ?_⟩
    unfold smtpdConnBody
    rw [Fields_token_cons verb ' ' _ hverb.1 hverb.2 hsp,
      Fields_token_cons "from".toList ' ' _ (by decide) (by decide) hsp, hm]
  obtain ⟨more, hf⟩ := hf
  have hN3 : ∀ c ∈ N, c ≠ '[' := fun c hc heq => hN2 c hc (by simp [heq])
  have hIP3 : ∀ c ∈ IP ++ [']'], c ≠ '[' := by
    intro c hc heq
    rcases List.mem_append.mp hc with h | h
    · exact hIP2 c h (by simp [heq])
    · rw [List.mem_singleton.mp h] at heq
      exact absurd heq (by decide)
  have hsp2 : Split (N ++ '[' :: (IP ++ [']'])) ['['] = [N, IP ++ [']']] :=
    Split_pieces '[' [] _ rfl [N] (IP ++ [']']) (by simpa using hN3)
      (cut_of_not_contains _ _ (not_contains_of_head '[' [] _ hIP3))
  have htrim : Trim (IP ++ [']']) [']'] = IP :=
    Trim_strip_last IP ']' [']'] (by simp) (fun x hx hmem => hIP2 x hx (by simp at hmem; simp [hmem]))
  unfold readSMTPdLine
  simp only [hsplit, hfields, hds, hts2, hf, hcf, hsp2, htrim, idx_zero, idx_succ,
    Run.ok_bind, Run.pure_eq, Option.isSome_none, Bool.false_eq_true, if_false, if_true]
  by_cases h1 : verb = "disconnect".toList
  · simp only [h1, if_true]
  · simp only [h1, if_false]
    by_cases h2 : verb = "connect".toList
    · simp only [h2, if_true]
    · simp only [h2, if_false]

/-! ## The tests of the connection extractor -/

theorem Run.of_bind_eq {α β : Type} {P : β → Prop} (x : Run α) (f : α → Run β)
    (h : ∀ a, x = Run.ok a → ∀ v, f a = Run.ok v → P v) : ∀ v, (x >>= f) = Run.ok v → P v := by
  intro v hv
  cases x with
  | panic => cases hv
  | ok a => exact h a rfl v hv

theorem Run.of_ite_cond {β : Type} {P : β → Prop} (c : Prop) [Decidable c] (x y : Run β)
    (hx : c → ∀ v, x = Run.ok v → P v) (hy : ¬ c → ∀ v, y = Run.ok v → P v) :
    ∀ v, (if c then x else y) = Run.ok v → P v := by
  intro v hv
  split at hv
  · exact hx (by assumption) v hv
  · exact hy (by assumption) v hv

theorem idx_getD {α : Type} (xs : List α) (i : Nat) (a d : α) (h : idx xs i = Run.ok a) :
    xs.getD i d = a := by
  unfold idx at h
  cases hx : xs[i]? with
  | none => rw [hx] at h; cases h
  | some b =>
    rw [hx] at h
    cases h
    simp [List.getD, hx]

theorem readSMTPdLine_table (year : Nat) (l : Str) :
    ∀ v, readSMTPdLine year l = Run.ok v → v.2 = none →
      ∃ r, v.1 = MailEvent.smtpd r ∧
        r.RecordType =
          (if Contains l "connect from".toList = true then
            (if firstField (messageOf l) = "disconnect".toList then 1 else 0)
          else if Contains (messageOf l) "lost connection after CONNECT".toList = true then 2
          else if Contains (messageOf l) "client=".toList = true then 3 else 0) ∧
        r.QueueID = (if r.RecordType = 3 then Trim (firstField (messageOf l)) [':'] else []) := by
  unfold readSMTPdLine
  dsimp only
  refine Run.of_bind _ _ ?_
  intro _meta
  refine Run.of_bind_eq _ _ ?_
  intro message hmsg
  have hm : messageOf l = message := idx_getD _ _ _ _ hmsg
  refine Run.of_bind _ _ ?_
  intro host
  refine Run.of_ite_cond _ _ _ ?_ ?_
  · intro hc v hv hnone
    cases hv
    dsimp only at hnone
    rw [hnone] at hc
    exact absurd hc (by decide)
  · intro _
    rw [hm]
    refine Run.of_ite_cond _ _ _ ?_ ?_
    · intro hcf
      refine Run.of_bind_eq _ _ ?_
      intro m0 hm0
      have hf : firstField message = m0 := idx_getD _ _ _ _ hm0
      refine Run.of_bind _ _ ?_
      intro m2
      refine Run.of_bind _ _ ?_
      intro hname
      refine Run.of_bind _ _ ?_
      intro h1
      refine Run.of_pure _ ?_
      intro _
      refine ⟨_, rfl, ?_, ?_⟩
      · rw [if_pos hcf, hf]
        by_cases hd : m0 = "disconnect".toList
        · rw [if_pos hd, if_pos hd]
        · rw [if_neg hd, if_neg hd]
          by_cases hc2 : m0 = "connect".toList
          · rw [if_pos hc2]
          · rw [if_neg hc2]
      · by_cases hd : m0 = "disconnect".toList
        · rw [if_pos hd]
          rfl
        · rw [if_neg hd]
          by_cases hc2 : m0 = "connect".toList
          · rw [if_pos hc2]
            rfl
          · rw [if_neg hc2]
            rfl
    · intro hcf
      refine Run.of_ite_cond _ _ _ ?_ ?_
      · intro hlost
        refine Run.of_pure _ ?_
        intro _
        refine ⟨_, rfl, ?_, ?_⟩
        · rw [if_neg hcf, if_pos hlost]
        · rfl
      · intro hlost
        refine Run.of_ite_cond _ _ _ ?_ ?_
        · intro hcl
          refine Run.of_bind_eq _ _ ?_
          intro m0 hm0
          have hf : firstField message = m0 := idx_getD _ _ _ _ hm0
          refine Run.of_pure _ ?_
          intro _
          refine ⟨_, rfl, ?_, ?_⟩
          · rw [if_neg hcf, if_neg hlost, if_pos hcl]
          · rw [hf]
            rfl
        · intro hcl
          refine Run.of_pure _ ?_
          intro _
          refine ⟨_, rfl, ?_, ?_⟩
          · rw [if_neg hcf, if_neg hlost, if_neg hcl]
          · rfl

theorem fieldsAux_ne_nil (s cur : Str) (h : cur ≠ [] ∨ ∃ c ∈ s, isSpace c = false) :
    fieldsAux s cur ≠ [] := by
  induction s generalizing cur with
  | nil =>
    rcases h with h | ⟨c, hc, _⟩
    · cases cur with
      | nil => exact absurd rfl h
      | cons a as => simp [fieldsAux]
    · cases hc
  | cons c cs ih =>
    rw [fieldsAux]
    by_cases hsp : isSpace c = true
    · rw [if_pos hsp]
      cases cur with
      | nil =>
        rcases h with h | ⟨x, hx, hxs⟩
        · exact absurd rfl h
        · rcases List.mem_cons.mp hx with hx | hx
          · rw [hx, hsp] at hxs
            cases hxs
          · simpa using ih [] (Or.inr ⟨x, hx, hxs⟩)
      | cons a as => simp
    · rw [if_neg hsp]
      exact ih (c :: cur) (Or.inl (by simp))

theorem mem_of_contains (h : Char) (sep s : Str) (hs : Contains s (h :: sep) = true) : h ∈ s := by
  by_contra hn
  have := not_contains_of_head h sep s (fun c hc heq => hn (heq ▸ hc))
  rw [this] at hs
  cases hs

theorem idx_Fields_zero (s : Str) (h : ∃ c ∈ s, isSpace c = false) :
    idx (Fields s) 0 = Run.ok (firstField s) := by
  have hne : Fields s ≠ [] := fieldsAux_ne_nil s [] (Or.inr h)
  unfold firstField
  cases hf : Fields s with
  | nil => exact absurd hf hne
  | cons a as => simp [idx]

/-- On a well-formed line that does not contain `connect from`, the connection
extractor tests the body for `lost connection after CONNECT`, then for
`client=`. -/
theorem readSMTPdLine_other (year : Nat) (m d t host pid B : Str)
    (hhead : headOK m d t host pid = true) (hdate : dateOK year m d t = true)
    (hB : Contains B metaSep = false)
    (hcf : Contains (logLine m d t host "postfix/smtpd".toList pid B)
      "connect from".toList = false) :
    ∃ r, readSMTPdLine year (logLine m d t host "postfix/smtpd".toList pid B) =
        Run.ok (MailEvent.smtpd r, none) ∧
      r.RecordType =
        (if Contains B "lost connection after CONNECT".toList = true then 2
         else if Contains B "client=".toList = true then 3 else 0) ∧
      r.QueueID = (if r.RecordType = 3 then Trim (firstField B) [':'] else []) := by
  obtain ⟨hsplit, hfields, hds⟩ := prologue year m d t host "postfix/smtpd".toList pid
    B hhead (by decide) (by decide) hB
  have hts : (timeParse (Join [m, d, t, fmtYear year] [' '])).2 = none := by
    simpa [dateOK] using hdate
  obtain ⟨ts, hts2⟩ : ∃ ts, timeParse (Join [m, d, t, fmtYear year] [' ']) = (ts, none) :=
    ⟨(timeParse (Join [m, d, t, fmtYear year] [' '])).1, Prod.ext rfl hts⟩
  unfold readSMTPdLine
  simp only [hsplit, hfields, hds, hts2, hcf, idx_zero, idx_succ,
    Run.ok_bind, Run.pure_eq, Option.isSome_none, Bool.false_eq_true, if_false]
  by_cases hlost : Contains B "lost connection after CONNECT".toList = true
  · simp only [hlost, if_true]
    exact ⟨_, rfl, rfl, rfl⟩
  · simp only [hlost, if_false]
    by_cases hcl : Contains B "client=".toList = true
    · have h0 := idx_Fields_zero B ⟨'c', mem_of_contains 'c' _ B hcl, by decide⟩
      simp only [hcl, if_true, h0, Run.ok_bind, Run.pure_eq]
      exact ⟨_, rfl, rfl, rfl⟩
    · simp only [hcl, if_false]
      exact ⟨_, rfl, rfl, rfl⟩

/-! ## The cleanup extractor on well-formed lines -/

theorem TrimLeft_drop_head (a : Char) (s cutset : Str) (ha : a ∈ cutset) :
    TrimLeft (a :: s) cutset = TrimLeft s cutset := by
  unfold TrimLeft
  rw [List.dropWhile_cons_of_pos (by simpa using ha)]

theorem TrimRight_drop_last (s : Str) (b : Char) (cutset : Str) (hb : b ∈ cutset) :
    TrimRight (s ++ [b]) cutset = TrimRight s cutset := by
  unfold TrimRight
  rw [List.reverse_append, List.reverse_singleton, List.singleton_append,
    List.dropWhile_cons_of_pos (by simpa using hb)]

theorem Trim_enclosed (a b : Char) (M cutset : Str) (ha : a ∈ cutset) (hb : b ∈ cutset)
    (hM : bare M cutset = true) : Trim (a :: (M ++ [b])) cutset = M := by
  unfold Trim
  rw [TrimLeft_drop_head a _ cutset ha]
  cases M with
  | nil =>
    rw [List.nil_append, TrimLeft_drop_head b [] cutset hb]
    rfl
  | cons x xs =>
    simp only [bare, List.head?_cons, Bool.and_eq_true, Bool.not_eq_true'] at hM
    obtain ⟨hx, hl⟩ := hM
    have hx2 : x ∉ cutset := by simpa using hx
    rw [List.cons_append, TrimLeft_of_head x _ cutset hx2, ← List.cons_append,
      TrimRight_drop_last (x :: xs) b cutset hb]
    rcases List.eq_nil_or_concat (x :: xs) with h | ⟨ys, y, h⟩
    · cases h
    · rw [h] at hl ⊢
      rw [List.concat_eq_append] at hl ⊢
      have hy : y ∉ cutset := by simpa using hl
      exact TrimRight_of_last ys y cutset hy

theorem parseCleanupLine_wellformed (year : Nat) (m d t host pid Q M tail : Str)
    (hhead : headOK m d t host pid = true) (hdate : dateOK year m d t = true)
    (hQ : queueIdOK Q = true) (hbody : cleanupOK Q M tail = true) :
    parseCleanupLine year
      (logLine m d t host "postfix/cleanup".toList pid (cleanupBody Q M tail)) =
    Run.ok (MailEvent.cleanup
      { Component := "cleanup".toList,
        DateTime := (timeParse (Join [m, d, t, fmtYear year] [' '])).1,
        Hostname := host, QueueID := Q, MessageId := M }, none) := by
  obtain ⟨hq1, hq2, hq3⟩ := queueId_facts Q hQ
  simp only [cleanupOK, Bool.and_eq_true, avoids_iff, Bool.not_eq_true',
    List.all_eq_true] at hbody
  obtain ⟨⟨⟨⟨hM, hM2⟩, hbare⟩, htail⟩, hB⟩ := hbody
  obtain ⟨hsplit, hfields, hds⟩ := prologue year m d t host "postfix/cleanup".toList pid
    (cleanupBody Q M tail) hhead (by decide) (by decide) hB
  have hts : (timeParse (Join [m, d, t, fmtYear year] [' '])).2 = none := by
    simpa [dateOK] using hdate
  obtain ⟨ts, hts2⟩ : ∃ ts, timeParse (Join [m, d, t, fmtYear year] [' ']) = (ts, none) :=
    ⟨(timeParse (Join [m, d, t, fmtYear year] [' '])).1, Prod.ext rfl hts⟩
  have ht1 : ∀ x ∈ "message-id=".toList ++ '<' :: (M ++ ['>']), isSpace x = false := by
    intro x hx
    simp only [List.mem_append, List.mem_cons, List.mem_singleton, List.not_mem_nil,
      or_false] at hx
    rcases hx with h | h | h | h
    · exact (by decide : ∀ x ∈ "message-id=".toList, isSpace x = false) x h
    · rw [h]; decide
    · simpa using hM x h
    · rw [h]; decide
  have hf : ∃ more, Fields (cleanupBody Q M tail) =
      (Q ++ [':']) :: ("message-id=".toList ++ '<' :: (M ++ ['>'])) :: more := by
    obtain ⟨more, hm⟩ := Fields_token_tail ("message-id=".toList ++ '<' :: (M ++ ['>'])) tail
      (by simp) ht1 htail
    refine ⟨more, ?_⟩
    unfold cleanupBody
    rw [Fields_token_cons (Q ++ [':']) ' ' _ (by simp) hq1 (by decide), hm]
  obtain ⟨more, hf⟩ := hf
  have htrim : Trim (Q ++ [':']) [':'] = Q := Trim_strip_last Q ':' [':'] (by simp) hq2
  have hMe : ∀ c ∈ '<' :: (M ++ ['>']), c ≠ '=' := by
    intro c hc heq
    simp only [List.mem_append, List.mem_cons, List.mem_singleton, List.not_mem_nil,
      or_false] at hc
    rcases hc with h | h | h
    · rw [h] at heq; exact absurd heq (by decide)
    · exact hM2 c h (by simp [heq])
    · rw [h] at heq; exact absurd heq (by decide)
  have hk : Split ("message-id=".toList ++ '<' :: (M ++ ['>'])) ['='] =
      ["message-id".toList, '<' :: (M ++ ['>'])] :=
    Split_eq_pair "message-id".toList ('<' :: (M ++ ['>'])) (by decide) hMe
  have hmid : Trim ('<' :: (M ++ ['>'])) ['<', '>'] = M :=
    Trim_enclosed '<' '>' M _ (by simp) (by simp) hbare
  unfold parseCleanupLine
  simp only [hsplit, hfields, hds, hts2, hf, htrim, hk, hmid, idx_zero, idx_succ,
    Run.ok_bind, Run.pure_eq, Option.isSome_none, Bool.false_eq_true, if_false]
/-! ## The ingest loop -/

/-- C1 (the code departs from it): on a line whose subsystem tag is not one of
the six known ones, the switch selects no case and the unconditional `append`
stores the loop variable `event` once more: `Events` grows by the previous
line's event, or by nil at the start. -/
theorem C1_unknown_tag_appends_stale_event (parseFloat : Str → Float64 × Option GoError)
    (year : Nat) (st : LoopState) :
    parseLine parseFloat year st anvilLine =
      Run.ok { store := { st.store with Events := st.store.Events ++ [st.event] },
               event := st.event } ∧
    parseLine parseFloat year {} anvilLine =
      Run.ok { store := { Events := [none] }, event := none } := by
  constructor <;> rfl

/-- C2 (the code departs from it): `parseQmgrLine` returns a syntax error on a
line with `size=abc`, together with the partly filled record, and the loop
appends that record to `Events`. -/
theorem C2_error_line_appends_partial_record (parseFloat : Str → Float64 × Option GoError)
    (st : LoopState) :
    parseQmgrLine 2026 qmgrBadSizeLine =
      Run.ok (MailEvent.qmgr qmgrBadSizeRecord, some GoError.numSyntax) ∧
    parseLine parseFloat 2026 st qmgrBadSizeLine =
      Run.ok { store := { st.store with
                 Events := st.store.Events ++ [some (MailEvent.qmgr qmgrBadSizeRecord)] },
               event := some (MailEvent.qmgr qmgrBadSizeRecord) } := by
  constructor
  · decide
  · rfl

/-- C3 (the code departs from it): a line that carries the marker and has fewer
than five fields makes `allfields[4]` panic. -/
theorem C3_short_marked_line_panics (parseFloat : Str → Float64 × Option GoError)
    (year : Nat) (st : LoopState) :
    idx (Fields shortLine) 4 = (Run.panic : Run Str) ∧
    parseLine parseFloat year st shortLine = Run.panic := by
  constructor <;> rfl

/-- C4: a line without the marker `" postfix/"` leaves the loop state, hence
`Events`, unchanged, and the step does not panic. -/
theorem C4_unmarked_line_ignored (parseFloat : Str → Float64 × Option GoError)
    (year : Nat) (st : LoopState) (line : Str) (h : Contains line marker = false) :
    parseLine parseFloat year st line = Run.ok st := by
  simp [parseLine, h]

/-- Witness of C4 on a line with three fields and no `"]: "`. -/
theorem C4_unmarked_line_ignored_witness :
    Contains kernelLine marker = false ∧ (Fields kernelLine).length < 5 ∧
    Contains kernelLine metaSep = false ∧
    parseLine (fun _ => (⟨0⟩, none)) 2026 {} kernelLine = Run.ok {} :=
  ⟨by decide, by decide, by decide,
   C4_unmarked_line_ignored (fun _ => (⟨0⟩, none)) 2026 {} kernelLine (by decide)⟩

/-! ## The relay extractor -/

theorem dateOK_sample (year : Nat) (h1 : 1000 ≤ year) (h2 : year ≤ 9999) :
    dateOK year "Jan".toList "5".toList "10:24:00".toList = true := by
  have e : Join ["Jan".toList, "5".toList, "10:24:00".toList,
      [Nat.digitChar (year / 1000), Nat.digitChar (year / 100 % 10),
        Nat.digitChar (year / 10 % 10), Nat.digitChar (year % 10)]] [' '] =
      "Jan 5 10:24:00 ".toList ++ [Nat.digitChar (year / 1000), Nat.digitChar (year / 100 % 10),
        Nat.digitChar (year / 10 % 10), Nat.digitChar (year % 10)] := rfl
  unfold dateOK
  rw [fmtYear_four year h1 h2, e]
  unfold timeParse
  rw [timeParseCore_sample _ _ _ _ (isDigit_digitChar _ (by omega)).1
    (isDigit_digitChar _ (by omega)).1 (isDigit_digitChar _ (by omega)).1
    (isDigit_digitChar _ (by omega)).1]
  rfl

/-- C5 (the claim as stated fails): in 2026 the documented relay line gives the
status message `(250 OK)`, not `OK`, and an empty relay, not `mx.y.com`. -/
theorem C5_sample_counterexample :
    parseSMTPLine 2026 relaySample = Run.ok (MailEvent.smtp relaySampleRecord, none) ∧
    relaySampleRecord.StatusMessage ≠ "OK".toList ∧
    relaySampleRecord.Relay ≠ "mx.y.com".toList := by
  decide

/-- C5 (as amended): for every four-digit reference year the documented relay
line gives an event with component `smtp`, status `sent`, status message
`(250 OK)` and an empty relay (its delay `1.2` is not an integer literal). -/
theorem C5_sample_relay_event (year : Nat) (h1 : 1000 ≤ year) (h2 : year ≤ 9999) :
    ∃ r, parseSMTPLine year relaySample = Run.ok (MailEvent.smtp r, none) ∧
      (MailEvent.smtp r).GetComponent = "smtp".toList ∧ r.Status = "sent".toList ∧
      r.StatusMessage = "(250 OK)".toList ∧ r.Relay = [] := by
  have e : relaySample = logLine "Jan".toList "5".toList "10:24:00".toList "mail".toList
      "postfix/smtp".toList "1234".toList
      (smtpBody "ABC123".toList "x@y.com".toList "mx.y.com[1.2.3.4]:25".toList "1.2".toList
        ("sent".toList ++ ([' '] ++ "(250 OK)".toList))) := by decide
  have hD : (ParseInt "1.2".toList).2.isSome = true := by decide
  rw [e, parseSMTPLine_wellformed year _ _ _ _ _ _ _ _ _ _ _ (by decide)
    (dateOK_sample year h1 h2) (by decide), if_pos hD]
  exact ⟨_, rfl, rfl, rfl, rfl, rfl⟩

/-- Witness of C5 in the year 2026. -/
theorem C5_sample_relay_event_witness :
    ∃ r, parseSMTPLine 2026 relaySample = Run.ok (MailEvent.smtp r, none) ∧
      (MailEvent.smtp r).GetComponent = "smtp".toList ∧ r.Status = "sent".toList ∧
      r.StatusMessage = "(250 OK)".toList ∧ r.Relay = [] :=
  C5_sample_relay_event 2026 (by decide) (by decide)

/-- C6 (the claim as stated fails): with the relay value `mx.y.com[1.2.3.4]:25`
and an integer delay, the stored relay is `1.2.3.4]:25`, not the host `mx.y.com`;
and with the decimal delay `08`, which `strconv.ParseInt` reads as octal and
rejects, the relay value `none` is not stored at all. -/
theorem C6_relay_counterexample :
    parseSMTPLine 2026 relayIntLine = Run.ok (MailEvent.smtp relayIntRecord, none) ∧
    relayIntRecord.Relay = "1.2.3.4]:25".toList ∧
    relayIntRecord.Relay ≠ "mx.y.com".toList ∧
    parseSMTPLine 2026 relayOctalLine = Run.ok (MailEvent.smtp relaySampleRecord, none) ∧
    relaySampleRecord.Relay ≠ "none".toList := by
  decide

/-- C6 (as amended): on a well-formed relay line whose delay `D` is accepted by
`strconv.ParseInt`, a relay value `H[X` (neither `H` nor `X` containing `[`) is
stored as `X`, the text after the bracket, and a relay value without `[` is
stored unchanged. -/
theorem C6_relay_is_text_after_bracket (year : Nat) (m d t host pid Q A D S T H X : Str)
    (hhead : headOK m d t host pid = true) (hdate : dateOK year m d t = true)
    (hD : (ParseInt D).2 = none) (hH : avoids H ['['] = true) (hX : avoids X ['['] = true)
    (hb1 : smtpBodyOK Q A (H ++ '[' :: X) D S T = true)
    (hb2 : smtpBodyOK Q A H D S T = true) :
    (∃ r, parseSMTPLine year (logLine m d t host "postfix/smtp".toList pid
        (smtpBody Q A (H ++ '[' :: X) D (S ++ ([' '] ++ T)))) = Run.ok (MailEvent.smtp r, none) ∧
      r.Relay = X) ∧
    (∃ r, parseSMTPLine year (logLine m d t host "postfix/smtp".toList pid
        (smtpBody Q A H D (S ++ ([' '] ++ T)))) = Run.ok (MailEvent.smtp r, none) ∧
      r.Relay = H) := by
  rw [avoids_iff] at hH hX
  have hH2 : ∀ c ∈ H, c ≠ '[' := fun c hc heq => hH c hc (by simp [heq])
  have hX2 : ∀ c ∈ X, c ≠ '[' := fun c hc heq => hX c hc (by simp [heq])
  have hsp : Split (H ++ '[' :: X) ['['] = [H, X] :=
    Split_pieces '[' [] _ rfl [H] X (by simpa using hH2)
      (cut_of_not_contains _ X (not_contains_of_head '[' [] X hX2))
  have hco : Contains (H ++ '[' :: X) ['['] = true :=
    contains_of_cut ['['] (H ++ '[' :: X) (H, X) (cut_append_sep '[' [] ['['] H X rfl hH2)
  have hno : Contains H ['['] = false := not_contains_of_head '[' [] H hH2
  constructor
  · rw [parseSMTPLine_wellformed year m d t host pid Q A (H ++ '[' :: X) D S T hhead hdate hb1]
    simp only [hD, Option.isSome_none, Bool.false_eq_true, if_false, hco, if_true, hsp,
      idx_succ, idx_zero, Run.bind_ok]
    exact ⟨_, rfl, rfl⟩
  · rw [parseSMTPLine_wellformed year m d t host pid Q A H D S T hhead hdate hb2]
    simp only [hD, Option.isSome_none, Bool.false_eq_true, if_false, hno]
    exact ⟨_, rfl, rfl⟩

/-- Witness of C6: the relay values `mx.y.com[1.2.3.4]:25` and `mx.y.com`. -/
theorem C6_relay_is_text_after_bracket_witness :
    (∃ r, parseSMTPLine 2026 (logLine "Jan".toList "5".toList "10:24:00".toList "mail".toList
        "postfix/smtp".toList "1234".toList (smtpBody "ABC123".toList "x@y.com".toList
          ("mx.y.com".toList ++ '[' :: "1.2.3.4]:25".toList) "12".toList
          ("sent".toList ++ ([' '] ++ "(250 OK)".toList)))) = Run.ok (MailEvent.smtp r, none) ∧
      r.Relay = "1.2.3.4]:25".toList) ∧
    (∃ r, parseSMTPLine 2026 (logLine "Jan".toList "5".toList "10:24:00".toList "mail".toList
        "postfix/smtp".toList "1234".toList (smtpBody "ABC123".toList "x@y.com".toList
          "mx.y.com".toList "12".toList
          ("sent".toList ++ ([' '] ++ "(250 OK)".toList)))) = Run.ok (MailEvent.smtp r, none) ∧
      r.Relay = "mx.y.com".toList) :=
  C6_relay_is_text_after_bracket 2026 "Jan".toList "5".toList "10:24:00".toList "mail".toList
    "1234".toList "ABC123".toList "x@y.com".toList "12".toList "sent".toList "(250 OK)".toList
    "mx.y.com".toList "1.2.3.4]:25".toList (by decide) (by decide) (by decide) (by decide)
    (by decide) (by decide) (by decide)

/-- C7 (the claim as stated fails): a status message containing `", "` is cut
at the comma (`(250 OK, queued)` is stored as `(250 OK`), and one containing
`=` makes `status_split[1]` panic. -/
theorem C7_status_counterexample :
    parseSMTPLine 2026 relayCommaLine = Run.ok (MailEvent.smtp relayCommaRecord, none) ∧
    relayCommaRecord.StatusMessage ≠ "(250 OK, queued)".toList ∧
    parseSMTPLine 2026 relayEqualsLine = Run.panic := by
  decide

/-- C7 (as amended): on a well-formed relay line whose status text is `S T`,
with `S` free of spaces and `=`, and `T` free of `=` and the text free of
`", "`, the event has `Status = S` and `StatusMessage = T`. -/
theorem C7_status_and_message (year : Nat) (m d t host pid Q A R D S T : Str)
    (hhead : headOK m d t host pid = true) (hdate : dateOK year m d t = true)
    (hbody : smtpBodyOK Q A R D S T = true) :
    ∃ r, parseSMTPLine year (logLine m d t host "postfix/smtp".toList pid
        (smtpBody Q A R D (S ++ ([' '] ++ T)))) = Run.ok (MailEvent.smtp r, none) ∧
      r.Status = S ∧ r.StatusMessage = T := by
  rw [parseSMTPLine_wellformed year m d t host pid Q A R D S T hhead hdate hbody]
  by_cases h1 : (ParseInt D).2.isSome = true
  · rw [if_pos h1]
    exact ⟨_, rfl, rfl, rfl⟩
  · rw [if_neg h1]
    by_cases h2 : Contains R ['['] = true
    · obtain ⟨x, hx⟩ := idx_Split_one R ['['] (by simp) h2
      rw [if_pos h2, hx]
      exact ⟨_, rfl, rfl, rfl⟩
    · rw [if_neg h2]
      exact ⟨_, rfl, rfl, rfl⟩

/-- Witness of C7: status text `sent (250 2.0.0 Ok: queued as 12345)`. -/
theorem C7_status_and_message_witness :
    smtpBodyOK "ABC123".toList "x@y.com".toList "mx.y.com[1.2.3.4]:25".toList "12".toList
      "sent".toList "(250 2.0.0 Ok: queued as 12345)".toList = true ∧
    ∃ r, parseSMTPLine 2026 (logLine "Jan".toList "5".toList "10:24:00".toList "mail".toList
        "postfix/smtp".toList "1234".toList (smtpBody "ABC123".toList "x@y.com".toList
          "mx.y.com[1.2.3.4]:25".toList "12".toList
          ("sent".toList ++ ([' '] ++ "(250 2.0.0 Ok: queued as 12345)".toList)))) =
          Run.ok (MailEvent.smtp r, none) ∧
      r.Status = "sent".toList ∧ r.StatusMessage = "(250 2.0.0 Ok: queued as 12345)".toList :=
  ⟨by decide, C7_status_and_message 2026 "Jan".toList "5".toList "10:24:00".toList
    "mail".toList "1234".toList "ABC123".toList "x@y.com".toList "mx.y.com[1.2.3.4]:25".toList
    "12".toList "sent".toList "(250 2.0.0 Ok: queued as 12345)".toList (by decide) (by decide)
    (by decide)⟩

/-- C8 (the code departs from it): the sentinel test of `parseSMTPLine` reads
the first comma-separated piece after the first `": "`, not the token in queue-id
position, so on `warning: ...` and `connect ...` bodies it does not short-circuit
and `status_split[1]` panics; `parseDeliveryLine` on the same body returns the
event with only the identifying fields set. -/
theorem C8_sentinel_lines_panic (parseFloat : Str → Float64 × Option GoError) :
    parseSMTPLine 2026 relayWarningLine = Run.panic ∧
    parseSMTPLine 2026 relayConnectLine = Run.panic ∧
    parseDeliveryLine parseFloat 2026 localWarningLine =
      Run.ok (MailEvent.delivery localWarningRecord, none) := by
  refine ⟨by decide, by decide, ?_⟩
  rfl

/-- C9 (the code departs from it): `parseSMTPLine` returns a nil error both when
the delay is not a number and when the date does not parse, although
`strconv.ParseInt` and `time.Parse` fail; `parseQmgrLine` returns the error of
`time.Parse` on the same date. -/
theorem C9_relay_errors_are_dropped :
    (ParseInt "abc".toList).2 = some GoError.numSyntax ∧
    parseSMTPLine 2026 relayBadDelayLine =
      Run.ok (MailEvent.smtp { relaySampleRecord with StatusMessage := "(250 OK)".toList },
        none) ∧
    (timeParse "Jax 5 10:24:00 2026".toList).2 = some GoError.timeParse ∧
    parseSMTPLine 2026 relayBadDateLine = Run.ok (MailEvent.smtp relayBadDateRecord, none) ∧
    (∃ e, parseQmgrLine 2026 qmgrBadDateLine = Run.ok (e, some GoError.timeParse)) := by
  refine ⟨by decide, by decide, by decide, by decide, ?_⟩
  exact ⟨MailEvent.qmgr { Component := "qmgr".toList, Hostname := "mail".toList }, by decide⟩

/-! ## The queue-manager extractor -/

/-- C10 (the claim as stated fails): on `ABC123: removed` the record has
`Sequence = 1` and `GetRecordType() = 0`, not 1. -/
theorem C10_removed_counterexample :
    parseQmgrLine 2026 qmgrRemovedLine = Run.ok (MailEvent.qmgr qmgrRemovedRecord, none) ∧
    (MailEvent.qmgr qmgrRemovedRecord).GetRecordType = 0 ∧
    (MailEvent.qmgr qmgrRemovedRecord).GetRecordType ≠ 1 := by
  decide

/-- C10 (as amended): on a well-formed queue-manager line with body `Q: removed`
the event has `QueueID = Q`, `Sequence = 1` and `GetRecordType() = 0`; on a
well-formed line carrying `size=`/`nrcpt=` pairs an event is returned and its
`GetRecordType()` is 0. -/
theorem C10_removed_sets_sequence (year : Nat) (m d t host pid Q F S N rest : Str)
    (hhead : headOK m d t host pid = true) (hdate : dateOK year m d t = true)
    (hQ : queueIdOK Q = true) (hbody : qmgrSizeOK Q F S N rest = true) :
    (∃ r, parseQmgrLine year (logLine m d t host "postfix/qmgr".toList pid
        (qmgrRemovedBody Q)) = Run.ok (MailEvent.qmgr r, none) ∧
      r.QueueID = Q ∧ r.Sequence = 1 ∧ (MailEvent.qmgr r).GetRecordType = 0) ∧
    (∃ e err, parseQmgrLine year (logLine m d t host "postfix/qmgr".toList pid
        (qmgrSizeBody Q F S N rest)) = Run.ok (e, err) ∧ e.GetRecordType = 0) := by
  constructor
  · rw [parseQmgrLine_removed year m d t host pid Q hhead hdate hQ]
    exact ⟨_, rfl, rfl, rfl, rfl⟩
  · rw [parseQmgrLine_sizes year m d t host pid Q F S N rest hhead hdate hQ hbody]
    by_cases h1 : (ParseInt S).2.isSome = true
    · rw [if_pos h1]
      exact ⟨_, _, rfl, rfl⟩
    · rw [if_neg h1]
      exact ⟨_, _, rfl, rfl⟩

/-- Witness of C10: the two queue-manager lines documented in the specification. -/
theorem C10_removed_sets_sequence_witness :
    (∃ r, parseQmgrLine 2026 (logLine "Jan".toList "5".toList "10:22:40".toList "mail".toList
        "postfix/qmgr".toList "1234".toList (qmgrRemovedBody "ABC123".toList)) =
          Run.ok (MailEvent.qmgr r, none) ∧
      r.QueueID = "ABC123".toList ∧ r.Sequence = 1 ∧ (MailEvent.qmgr r).GetRecordType = 0) ∧
    (∃ e err, parseQmgrLine 2026 (logLine "Jan".toList "5".toList "10:22:40".toList
        "mail".toList "postfix/qmgr".toList "1234".toList
        (qmgrSizeBody "ABC123".toList "a@b.com".toList "512".toList "1".toList
          "(queue active)".toList)) = Run.ok (e, err) ∧ e.GetRecordType = 0) :=
  C10_removed_sets_sequence 2026 "Jan".toList "5".toList "10:22:40".toList "mail".toList
    "1234".toList "ABC123".toList "a@b.com".toList "512".toList "1".toList
    "(queue active)".toList (by decide) (by decide) (by decide) (by decide)

/-! ## Sizes and recipient counts of queue-manager lines -/

/-- C11 (the claim as stated fails): `strconv.ParseInt(·, 0, 0)` takes the base
from the text, so the digit string `010`, which denotes ten, is stored as the
size 8, and the digit string `08` is rejected with a syntax error. -/
theorem C11_leading_zero_counterexample :
    parseQmgrLine 2026 qmgrOctalLine = Run.ok (MailEvent.qmgr qmgrOctalRecord, none) ∧
    qmgrOctalRecord.Size = 8 ∧ digitsVal "010".toList = 10 ∧
    (∃ e, parseQmgrLine 2026 qmgrEightLine = Run.ok (e, some GoError.numSyntax)) := by
  refine ⟨by decide, by decide, by decide, ?_⟩
  exact ⟨MailEvent.qmgr { qmgrOctalRecord with Size := 512, Nrcpt := 0 }, by decide⟩

/-- C11 (as amended): on a well-formed queue-manager line with body
`Q: from=<F>, size=S, nrcpt=N` followed by nothing or by white space and more
text (such as ` (queue active)`), where `S` and `N` are decimal integers without
a leading zero and below `2^63`, `parseQmgrLine` returns no error and an event
with `QueueID = Q`, `Size` the decimal value of `S` and `Nrcpt` the decimal value
of `N`. -/
theorem C11_sizes_are_decimal_values (year : Nat) (m d t host pid Q F S N tail : Str)
    (hhead : headOK m d t host pid = true) (hdate : dateOK year m d t = true)
    (hQ : queueIdOK Q = true) (hbody : qmgrPairsOK Q F S N tail = true)
    (hS : decimalOK S = true) (hN : decimalOK N = true) :
    ∃ r, parseQmgrLine year (logLine m d t host "postfix/qmgr".toList pid
        (qmgrPairsBody Q F S N tail)) = Run.ok (MailEvent.qmgr r, none) ∧
      r.QueueID = Q ∧ r.Size = (digitsVal S : Int) ∧ r.Nrcpt = (digitsVal N : Int) := by
  rw [parseQmgrLine_pairs year m d t host pid Q F S N tail hhead hdate hQ hbody,
    ParseInt_decimal S hS, ParseInt_decimal N hN]
  exact ⟨_, rfl, rfl, rfl, rfl⟩

/-- Witness of C11: the queue-manager line documented in the specification. -/
theorem C11_sizes_are_decimal_values_witness :
    logLine "Jan".toList "5".toList "10:23:01".toList "mail".toList "postfix/qmgr".toList
      "1234".toList (qmgrPairsBody "ABC123".toList "a@b.com".toList "512".toList "1".toList
        " (queue active)".toList) =
      "Jan 5 10:23:01 mail postfix/qmgr[1234]: ABC123: from=<a@b.com>, size=512, nrcpt=1 (queue active)".toList ∧
    ∃ r, parseQmgrLine 2026 (logLine "Jan".toList "5".toList "10:23:01".toList "mail".toList
        "postfix/qmgr".toList "1234".toList (qmgrPairsBody "ABC123".toList "a@b.com".toList
          "512".toList "1".toList " (queue active)".toList)) = Run.ok (MailEvent.qmgr r, none) ∧
      r.QueueID = "ABC123".toList ∧ r.Size = (digitsVal "512".toList : Int) ∧
      r.Nrcpt = (digitsVal "1".toList : Int) :=
  ⟨by decide, C11_sizes_are_decimal_values 2026 "Jan".toList "5".toList "10:23:01".toList
    "mail".toList "1234".toList "ABC123".toList "a@b.com".toList "512".toList "1".toList
    " (queue active)".toList (by decide) (by decide) (by decide) (by decide) (by decide)
    (by decide)⟩

/-- C12: on a well-formed queue-manager line with body `Q: from=<F>, size=X,
nrcpt=N` (followed by nothing or by white space and more text), whenever
`strconv.ParseInt` rejects `X`, or rejects `N`, `parseQmgrLine` returns a non-nil
error, the one of `strconv.ParseInt`, together with the partly filled event. -/
theorem C12_bad_number_gives_error (year : Nat) (m d t host pid Q F X N tail : Str)
    (hhead : headOK m d t host pid = true) (hdate : dateOK year m d t = true)
    (hQ : queueIdOK Q = true) (hbody : qmgrPairsOK Q F X N tail = true)
    (hbad : (ParseInt X).2 ≠ none ∨ (ParseInt N).2 ≠ none) :
    ∃ r err, parseQmgrLine year (logLine m d t host "postfix/qmgr".toList pid
        (qmgrPairsBody Q F X N tail)) = Run.ok (MailEvent.qmgr r, some err) ∧
      (some err = (ParseInt X).2 ∨ some err = (ParseInt N).2) := by
  rw [parseQmgrLine_pairs year m d t host pid Q F X N tail hhead hdate hQ hbody]
  by_cases h1 : (ParseInt X).2.isSome = true
  · obtain ⟨err, herr⟩ := Option.isSome_iff_exists.mp h1
    rw [if_pos h1, herr]
    exact ⟨_, err, rfl, Or.inl rfl⟩
  · have hX : (ParseInt X).2 = none := by simpa using h1
    have hN : (ParseInt N).2 ≠ none := hbad.resolve_left (fun h => h hX)
    obtain ⟨err, herr⟩ := Option.ne_none_iff_exists'.mp hN
    rw [if_neg h1, herr]
    exact ⟨_, err, rfl, Or.inr rfl⟩

/-- Witness of C12: the sizes `abc` and `12x`, on a body that ends at the count. -/
theorem C12_bad_number_gives_error_witness :
    (ParseInt "abc".toList).2 = some GoError.numSyntax ∧
    (ParseInt "12x".toList).2 = some GoError.numSyntax ∧
    (∃ r err, parseQmgrLine 2026 (logLine "Jan".toList "5".toList "10:23:01".toList
        "mail".toList "postfix/qmgr".toList "1234".toList (qmgrPairsBody "ABC123".toList
          "a@b.com".toList "abc".toList "1".toList [])) = Run.ok (MailEvent.qmgr r, some err) ∧
      (some err = (ParseInt "abc".toList).2 ∨ some err = (ParseInt "1".toList).2)) :=
  ⟨by decide, by decide, C12_bad_number_gives_error 2026 "Jan".toList "5".toList
    "10:23:01".toList "mail".toList "1234".toList "ABC123".toList "a@b.com".toList
    "abc".toList "1".toList [] (by decide) (by decide) (by decide) (by decide)
    (Or.inl (by decide))⟩

/-! ## The connection extractor -/

/-- C13: on a well-formed connection line with body `connect from N[IP]` or
`disconnect from N[IP]`, followed by nothing or by white space and more tokens,
`readSMTPdLine` returns no error and an event with `ClientName = N`,
`ClientIP = IP`, and record type 0 for `connect`, 1 for `disconnect`. -/
theorem C13_connect_and_disconnect (year : Nat) (m d t host pid N IP tail : Str)
    (hhead : headOK m d t host pid = true) (hdate : dateOK year m d t = true)
    (hc : smtpdConnOK "connect".toList N IP tail = true)
    (hd : smtpdConnOK "disconnect".toList N IP tail = true) :
    (∃ r, readSMTPdLine year (logLine m d t host "postfix/smtpd".toList pid
        (smtpdConnBody "connect".toList N IP tail)) = Run.ok (MailEvent.smtpd r, none) ∧
      r.ClientName = N ∧ r.ClientIP = IP ∧ (MailEvent.smtpd r).GetRecordType = 0) ∧
    (∃ r, readSMTPdLine year (logLine m d t host "postfix/smtpd".toList pid
        (smtpdConnBody "disconnect".toList N IP tail)) = Run.ok (MailEvent.smtpd r, none) ∧
      r.ClientName = N ∧ r.ClientIP = IP ∧ (MailEvent.smtpd r).GetRecordType = 1) := by
  have h1 : Contains (logLine m d t host "postfix/smtpd".toList pid
      (smtpdConnBody "connect".toList N IP tail)) "connect from".toList = true := by
    have hb : smtpdConnBody "connect".toList N IP tail =
        "connect from".toList ++ (' ' :: ((N ++ '[' :: (IP ++ [']'])) ++ tail)) := rfl
    unfold logLine
    rw [hb, ← List.append_assoc]
    exact Contains_infix _ _ _
  have h2 : Contains (logLine m d t host "postfix/smtpd".toList pid
      (smtpdConnBody "disconnect".toList N IP tail)) "connect from".toList = true := by
    have hb : smtpdConnBody "disconnect".toList N IP tail =
        "dis".toList ++ ("connect from".toList ++ (' ' :: ((N ++ '[' :: (IP ++ [']'])) ++ tail))) :=
      rfl
    unfold logLine
    rw [hb, ← List.append_assoc, ← List.append_assoc]
    exact Contains_infix _ _ _
  constructor
  · rw [readSMTPdLine_conn year m d t host pid _ N IP tail hhead hdate (by decide) hc h1]
    exact ⟨_, rfl, rfl, rfl, rfl⟩
  · rw [readSMTPdLine_conn year m d t host pid _ N IP tail hhead hdate (by decide) hd h2]
    exact ⟨_, rfl, rfl, rfl, rfl⟩

/-- Witness of C13: the connection line documented in the specification, and the
same line with `disconnect`. -/
theorem C13_connect_and_disconnect_witness :
    logLine "Jan".toList "5".toList "10:22:31".toList "mail".toList "postfix/smtpd".toList
      "1234".toList (smtpdConnBody "connect".toList "host.example.com".toList
        "10.0.0.5".toList []) =
      "Jan 5 10:22:31 mail postfix/smtpd[1234]: connect from host.example.com[10.0.0.5]".toList ∧
    (∃ r, readSMTPdLine 2026 (logLine "Jan".toList "5".toList "10:22:31".toList "mail".toList
        "postfix/smtpd".toList "1234".toList (smtpdConnBody "connect".toList
          "host.example.com".toList "10.0.0.5".toList [])) = Run.ok (MailEvent.smtpd r, none) ∧
      r.ClientName = "host.example.com".toList ∧ r.ClientIP = "10.0.0.5".toList ∧
      (MailEvent.smtpd r).GetRecordType = 0) ∧
    (∃ r, readSMTPdLine 2026 (logLine "Jan".toList "5".toList "10:22:31".toList "mail".toList
        "postfix/smtpd".toList "1234".toList (smtpdConnBody "disconnect".toList
          "host.example.com".toList "10.0.0.5".toList [])) = Run.ok (MailEvent.smtpd r, none) ∧
      r.ClientName = "host.example.com".toList ∧ r.ClientIP = "10.0.0.5".toList ∧
      (MailEvent.smtpd r).GetRecordType = 1) :=
  ⟨by decide, C13_connect_and_disconnect 2026 "Jan".toList "5".toList "10:22:31".toList
    "mail".toList "1234".toList "host.example.com".toList "10.0.0.5".toList []
    (by decide) (by decide) (by decide) (by decide)⟩

/-- C14 (the claim as stated fails): record type 0 is also what every line that
matches none of the tests gets. A `warning:` line and a `lost connection after
DATA` line of the connection subsystem are read without error and with record
type 0, although neither contains `connect from`. -/
theorem C14_unmatched_line_counterexample :
    readSMTPdLine 2026 smtpdWarningLine = Run.ok (MailEvent.smtpd smtpdWarningRecord, none) ∧
    (MailEvent.smtpd smtpdWarningRecord).GetRecordType = 0 ∧
    Contains smtpdWarningLine "connect from".toList = false ∧
    readSMTPdLine 2026 smtpdLostDataLine =
      Run.ok (MailEvent.smtpd { smtpdWarningRecord with DateTime := ⟨2026, 1, 5, 10, 22, 33, 0⟩ },
        none) ∧
    Contains smtpdLostDataLine "connect from".toList = false := by
  decide

/-- C14 (as amended): on every line `l` that `readSMTPdLine` reads without
error, the record type is 1 when `l` contains `connect from` and the first token
of its body is `disconnect`; it is 2 when `l` does not contain `connect from` and
the body contains `lost connection after CONNECT`; it is 3 when neither holds
and the body contains `client=`; and it is 0 in every other case, which includes
the lines that match none of the tests. `QueueID` is the first body token
without its colons when the record type is 3, and empty otherwise. Moreover
every well-formed line with body `B` that does not contain `connect from` is
read without error, and if `B` is `Q: client=...` without `lost connection
after CONNECT` the record type is 3 and `QueueID = Q`. -/
theorem C14_record_type_table (year : Nat) (l : Str) (e : MailEvent)
    (m d t host pid B : Str)
    (h : readSMTPdLine year l = Run.ok (e, none))
    (hhead : headOK m d t host pid = true) (hdate : dateOK year m d t = true)
    (hB : Contains B metaSep = false)
    (hcf : Contains (logLine m d t host "postfix/smtpd".toList pid B)
      "connect from".toList = false) :
    (∃ r, e = MailEvent.smtpd r ∧
      r.RecordType =
        (if Contains l "connect from".toList = true then
          (if firstField (messageOf l) = "disconnect".toList then 1 else 0)
        else if Contains (messageOf l) "lost connection after CONNECT".toList = true then 2
        else if Contains (messageOf l) "client=".toList = true then 3 else 0) ∧
      r.QueueID = (if r.RecordType = 3 then Trim (firstField (messageOf l)) [':'] else [])) ∧
    (∃ r, readSMTPdLine year (logLine m d t host "postfix/smtpd".toList pid B) =
        Run.ok (MailEvent.smtpd r, none) ∧
      r.RecordType =
        (if Contains B "lost connection after CONNECT".toList = true then 2
         else if Contains B "client=".toList = true then 3 else 0) ∧
      r.QueueID = (if r.RecordType = 3 then Trim (firstField B) [':'] else []) ∧
      (∀ Q rest, B = (Q ++ [':']) ++ ' ' :: ("client=".toList ++ rest) →
        queueIdOK Q = true →
        Contains B "lost connection after CONNECT".toList = false →
        r.RecordType = 3 ∧ r.QueueID = Q)) := by
  refine ⟨readSMTPdLine_table year l (e, none) h rfl, ?_⟩
  obtain ⟨r, hr, hty, hq⟩ := readSMTPdLine_other year m d t host pid B hhead hdate hB hcf
  refine ⟨r, hr, hty, hq, ?_⟩
  intro Q rest hBeq hQ hlost
  obtain ⟨hq1, hq2, _⟩ := queueId_facts Q hQ
  have hcl : Contains B "client=".toList = true := by
    have e : (Q ++ [':']) ++ ' ' :: ("client=".toList ++ rest) =
        (Q ++ [':', ' ']) ++ ("client=".toList ++ rest) := by simp
    rw [hBeq, e]
    exact Contains_infix _ _ _
  have hff : firstField B = Q ++ [':'] := by
    unfold firstField
    rw [hBeq, Fields_token_cons (Q ++ [':']) ' ' _ (by simp) hq1 (by decide)]
    rfl
  have h3 : r.RecordType = 3 := by
    rw [hty, hlost, if_neg (by decide), if_pos hcl]
  refine ⟨h3, ?_⟩
  rw [hq, if_pos h3, hff]
  exact Trim_strip_last Q ':' [':'] (by simp) hq2

/-- Witness of C14: a client line and a lost-connection line, read in 2026. -/
theorem C14_record_type_table_witness :
    readSMTPdLine 2026 smtpdClientLine = Run.ok (MailEvent.smtpd smtpdClientRecord, none) ∧
    readSMTPdLine 2026 smtpdLostLine =
      Run.ok (MailEvent.smtpd { smtpdWarningRecord with
        DateTime := ⟨2026, 1, 5, 10, 22, 33, 0⟩, RecordType := 2 }, none) ∧
    smtpdClientLine = logLine "Jan".toList "5".toList "10:22:35".toList "mail".toList
      "postfix/smtpd".toList "1234".toList "ABC123: client=host.example.com[10.0.0.5]".toList ∧
    ((∃ r, MailEvent.smtpd smtpdClientRecord = MailEvent.smtpd r ∧
      r.RecordType =
        (if Contains smtpdClientLine "connect from".toList = true then
          (if firstField (messageOf smtpdClientLine) = "disconnect".toList then 1 else 0)
        else if Contains (messageOf smtpdClientLine)
            "lost connection after CONNECT".toList = true then 2
        else if Contains (messageOf smtpdClientLine) "client=".toList = true then 3 else 0) ∧
      r.QueueID =
        (if r.RecordType = 3 then Trim (firstField (messageOf smtpdClientLine)) [':']
         else [])) ∧
    (∃ r, readSMTPdLine 2026 (logLine "Jan".toList "5".toList "10:22:35".toList "mail".toList
        "postfix/smtpd".toList "1234".toList
        "ABC123: client=host.example.com[10.0.0.5]".toList) =
        Run.ok (MailEvent.smtpd r, none) ∧
      r.RecordType =
        (if Contains "ABC123: client=host.example.com[10.0.0.5]".toList
            "lost connection after CONNECT".toList = true then 2
         else if Contains "ABC123: client=host.example.com[10.0.0.5]".toList
            "client=".toList = true then 3 else 0) ∧
      r.QueueID =
        (if r.RecordType = 3 then
          Trim (firstField "ABC123: client=host.example.com[10.0.0.5]".toList) [':']
         else []) ∧
      (∀ Q rest, "ABC123: client=host.example.com[10.0.0.5]".toList =
          (Q ++ [':']) ++ ' ' :: ("client=".toList ++ rest) →
        queueIdOK Q = true →
        Contains "ABC123: client=host.example.com[10.0.0.5]".toList
          "lost connection after CONNECT".toList = false →
        r.RecordType = 3 ∧ r.QueueID = Q))) :=
  ⟨by decide, by decide, by decide, C14_record_type_table 2026 smtpdClientLine
    (MailEvent.smtpd smtpdClientRecord) "Jan".toList "5".toList "10:22:35".toList "mail".toList
    "1234".toList "ABC123: client=host.example.com[10.0.0.5]".toList (by decide) (by decide)
    (by decide) (by decide) (by decide)⟩

/-! ## The delivery extractor -/

/-- C15 (the code departs from it): on the usual local-delivery line every
field is stored as documented except the delivery status notification, which
keeps the comma that follows it (`2.0.0,`): `strings.Split(mparts[6], " ")[0]`
does not remove the comma that `strings.Trim(·, ",")` removes from the fields
before it. This holds whatever `strconv.ParseFloat` returns for the delay. -/
theorem C15_dsn_keeps_comma (parseFloat : Str → Float64 × Option GoError) :
    ∃ r err, parseDeliveryLine parseFloat 2026 localLine = Run.ok (MailEvent.delivery r, err) ∧
      r.QueueID = "ABC123".toList ∧ r.To = "a@b.c".toList ∧ r.OriginalTo = "root".toList ∧
      r.Delays = "0.01/0/0/0.04".toList ∧ r.Status = "sent".toList ∧
      r.DeliveryMessage = "delivered to mailbox".toList ∧
      r.DSN = "2.0.0,".toList ∧ r.DSN ≠ "2.0.0".toList := by
  have h : parseDeliveryLine parseFloat 2026 localLine =
      (if (parseFloat "0.05".toList).2.isSome then
        Run.ok (MailEvent.delivery { localRecord with Delay := (parseFloat "0.05".toList).fst },
          (parseFloat "0.05".toList).snd)
       else
        Run.ok (MailEvent.delivery
          { localRecord with
            Delay := (parseFloat "0.05".toList).fst, Relay := "local".toList },
          (parseFloat "0.05".toList).snd)) := by
    rfl
  rw [h]
  by_cases hs : (parseFloat "0.05".toList).2.isSome = true
  · rw [if_pos hs]
    exact ⟨_, _, rfl, rfl, rfl, rfl, rfl, rfl, rfl, rfl,
      (by decide : localRecord.DSN ≠ "2.0.0".toList)⟩
  · rw [if_neg hs]
    exact ⟨_, _, rfl, rfl, rfl, rfl, rfl, rfl, rfl, rfl,
      (by decide : localRecord.DSN ≠ "2.0.0".toList)⟩

/-! ## The cleanup extractor -/

/-- C16 (the claim as stated fails): the message id is the text between the
first and the second `=` of its token, so `<a=b@host.example.com>` is stored as
`a`. -/
theorem C16_message_id_counterexample :
    parseCleanupLine 2026 cleanupEqualsLine =
      Run.ok (MailEvent.cleanup cleanupEqualsRecord, none) ∧
    cleanupEqualsRecord.MessageId = "a".toList ∧
    cleanupEqualsRecord.MessageId ≠ "a=b@host.example.com".toList := by
  decide

/-- C16 (as amended): on a well-formed cleanup line with body
`Q: message-id=<M>` (followed by nothing or by white space and more text), where
`M` has no white space and no `=` and neither starts nor ends with `<` or `>`,
`parseCleanupLine` returns no error and an event with `QueueID = Q` and
`MessageId = M`. -/
theorem C16_message_id_without_brackets (year : Nat) (m d t host pid Q M tail : Str)
    (hhead : headOK m d t host pid = true) (hdate : dateOK year m d t = true)
    (hQ : queueIdOK Q = true) (hbody : cleanupOK Q M tail = true) :
    ∃ r, parseCleanupLine year (logLine m d t host "postfix/cleanup".toList pid
        (cleanupBody Q M tail)) = Run.ok (MailEvent.cleanup r, none) ∧
      r.QueueID = Q ∧ r.MessageId = M := by
  rw [parseCleanupLine_wellformed year m d t host pid Q M tail hhead hdate hQ hbody]
  exact ⟨_, rfl, rfl, rfl⟩

/-- Witness of C16: the message id `20260105.1@host.example.com`. -/
theorem C16_message_id_without_brackets_witness :
    logLine "Jan".toList "5".toList "10:22:32".toList "mail".toList "postfix/cleanup".toList
      "1234".toList (cleanupBody "ABC123".toList "20260105.1@host.example.com".toList []) =
      "Jan 5 10:22:32 mail postfix/cleanup[1234]: ABC123: message-id=<20260105.1@host.example.com>".toList ∧
    ∃ r, parseCleanupLine 2026 (logLine "Jan".toList "5".toList "10:22:32".toList
        "mail".toList "postfix/cleanup".toList "1234".toList
        (cleanupBody "ABC123".toList "20260105.1@host.example.com".toList [])) =
          Run.ok (MailEvent.cleanup r, none) ∧
      r.QueueID = "ABC123".toList ∧ r.MessageId = "20260105.1@host.example.com".toList :=
  ⟨by decide, C16_message_id_without_brackets 2026 "Jan".toList "5".toList "10:22:32".toList
    "mail".toList "1234".toList "ABC123".toList "20260105.1@host.example.com".toList []
    (by decide) (by decide) (by decide) (by decide)⟩
/-! ## Components, the recency filter and the accessors -/

/-- C17: when the switch of `ParseLogFile` selects an extractor for the tag
`component` and the extractor returns an event, the tag is `postfix/` followed
by the event's `GetComponent()`. -/
theorem C17_component_matches_tag (parseFloat : Str → Float64 × Option GoError) (year : Nat)
    (component l : Str) (e : MailEvent) (err : Option GoError)
    (h : dispatch parseFloat year component l = some (Run.ok (e, err))) :
    component = "postfix/".toList ++ e.GetComponent := by
  unfold dispatch at h
  split_ifs at h with h1 h2 h3 h4 h5 h6
  · rw [h1, readSMTPdLine_component year l (e, err) (Option.some.inj h)]
    rfl
  · rw [h2, parsePickupLine_component year l (e, err) (Option.some.inj h)]
    rfl
  · rw [h3, parseCleanupLine_component year l (e, err) (Option.some.inj h)]
    rfl
  · rw [h4, parseQmgrLine_component year l (e, err) (Option.some.inj h)]
    rfl
  · rw [h5, parseSMTPLine_component year l (e, err) (Option.some.inj h)]
    rfl
  · rw [h6, parseDeliveryLine_component parseFloat year l (e, err) (Option.some.inj h)]
    rfl

/-- Witness of C17: the queue-manager line `ABC123: removed`. -/
theorem C17_component_matches_tag_witness :
    dispatch noFloat 2026 "postfix/qmgr".toList qmgrRemovedLine =
      some (Run.ok (MailEvent.qmgr qmgrRemovedRecord, none)) ∧
    "postfix/qmgr".toList = "postfix/".toList ++ (MailEvent.qmgr qmgrRemovedRecord).GetComponent :=
  ⟨by decide, C17_component_matches_tag noFloat 2026 "postfix/qmgr".toList qmgrRemovedLine
    (MailEvent.qmgr qmgrRemovedRecord) none (by decide)⟩

/-- C18: on a store without nil events, with the clock reading `now`,
`GetRecords(ma)` returns the events of `Events` whose `time.Since` is below `ma`,
in the order of `Events`, and leaves the store unchanged; `time.Since` is the
difference of the instants for every `ma` above `minDuration`; and of two events
10 and 1000 seconds before `now`, `GetRecords(100s)` returns exactly the first. -/
theorem C18_GetRecords_is_filter (now : Time) (ma : Int) (l : LogStore)
    (hne : ∀ x ∈ l.Events, x ≠ none) :
    GetRecords (fun _ => now) l ma = Run.ok (l.Events.filter (withinWindow now ma), l) ∧
    (minDuration < ma → ma ≤ maxDuration → ∀ e : MailEvent,
      (withinWindow now ma (some e) = true ↔ now.nanos - e.GetEventTime.nanos < ma)) ∧
    (∀ e1 e2 : MailEvent, now.nanos - e1.GetEventTime.nanos = 10 * Second →
      now.nanos - e2.GetEventTime.nanos = 1000 * Second →
      GetRecords (fun _ => now) { Events := [some e1, some e2] } (100 * Second) =
        Run.ok ([some e1], { Events := [some e1, some e2] })) := by
  refine ⟨GetRecords_filter now ma l hne, ?_, ?_⟩
  · intro h1 h2 e
    simp only [withinWindow, decide_eq_true_eq]
    exact Since_lt_iff now e.GetEventTime ma h1 h2
  · intro e1 e2 h1 h2
    have hmin : minDuration < 100 * Second := by decide
    have hmax : 100 * Second ≤ maxDuration := by decide
    have w1 : withinWindow now (100 * Second) (some e1) = true := by
      simp only [withinWindow, decide_eq_true_eq]
      rw [Since_lt_iff now e1.GetEventTime _ hmin hmax, h1]
      decide
    have w2 : withinWindow now (100 * Second) (some e2) = false := by
      simp only [withinWindow, decide_eq_false_iff_not]
      rw [Since_lt_iff now e2.GetEventTime _ hmin hmax, h2]
      decide
    rw [GetRecords_filter now (100 * Second) { Events := [some e1, some e2] }
      (by intro x hx; simp at hx; rcases hx with rfl | rfl <;> simp)]
    simp [List.filter, w1, w2]

/-- Witness of C18: events 10 and 1000 seconds before noon of November 4, 2026. -/
theorem C18_GetRecords_is_filter_witness :
    GetRecords (fun _ => queryNow) { Events := [some recentEvent, some oldEvent] }
        (100 * Second) =
      Run.ok ([some recentEvent], { Events := [some recentEvent, some oldEvent] }) :=
  (C18_GetRecords_is_filter queryNow (100 * Second)
    { Events := [some recentEvent, some oldEvent] }
    (by decide)).2.2 recentEvent oldEvent (by decide) (by decide)

/-- C19: `GetQID` returns the field `QueueID` on relay and local-delivery events
and the empty string on connection, pickup, cleanup and queue-manager events,
whatever their `QueueID`; the queue-manager event of `ABC123: removed` has
`QueueID` `ABC123` and `GetQID()` empty. -/
theorem C19_GetQID_by_variant (c : SMTPdConnectionRecord) (p : PickupRecord)
    (k : CleanupRecord) (q : QueueManagerRecord) (s : SMTPRecord) (d : DeliveryRecord) :
    (MailEvent.smtp s).GetQID = s.QueueID ∧ (MailEvent.delivery d).GetQID = d.QueueID ∧
    (MailEvent.smtpd c).GetQID = [] ∧ (MailEvent.pickup p).GetQID = [] ∧
    (MailEvent.cleanup k).GetQID = [] ∧ (MailEvent.qmgr q).GetQID = [] ∧
    parseQmgrLine 2026 qmgrRemovedLine = Run.ok (MailEvent.qmgr qmgrRemovedRecord, none) ∧
    qmgrRemovedRecord.QueueID = "ABC123".toList ∧
    (MailEvent.qmgr qmgrRemovedRecord).GetQID = [] :=
  ⟨rfl, rfl, rfl, rfl, rfl, rfl, by decide, rfl, rfl⟩

/-- C20 (the claim as stated fails): ingesting a line of an unknown subsystem
and then a line dated December 31 leaves a nil event in the store, and on that
store `GetRecords` panics at the nil event instead of returning the later one. -/
theorem C20_nil_event_counterexample :
    parseLines noFloat 2026 {} [anvilLine, futureLine] =
      Run.ok { store := { Events := [none, some (MailEvent.qmgr futureRecord)] },
               event := some (MailEvent.qmgr futureRecord) } ∧
    queryNow.nanos < (MailEvent.qmgr futureRecord).GetEventTime.nanos ∧
    GetRecords (fun _ => queryNow) { Events := [none, some (MailEvent.qmgr futureRecord)] }
      Second = Run.panic := by
  decide

/-- C20 (as amended): on a store without nil events, with the clock reading
`now`, every event of `Events` whose time is later than `now` is in the list
that `GetRecords(ma)` returns, for every `ma > 0`. -/
theorem C20_future_events_returned (now : Time) (ma : Int) (l : LogStore) (e : MailEvent)
    (hne : ∀ x ∈ l.Events, x ≠ none) (he : some e ∈ l.Events)
    (hfut : now.nanos < e.GetEventTime.nanos) (hma : 0 < ma) :
    ∃ res, GetRecords (fun _ => now) l ma = Run.ok (res, l) ∧ some e ∈ res := by
  refine ⟨_, GetRecords_filter now ma l hne, ?_⟩
  rw [List.mem_filter]
  refine ⟨he, ?_⟩
  simp only [withinWindow, decide_eq_true_eq, Since, Time.Sub]
  have hmin : minDuration < 0 := by decide
  have hmax : (0 : Int) < maxDuration := by decide
  split_ifs <;> omega

/-- Witness of C20: the event of a line dated December 31, queried on November 4
of the same year with a window of one second. -/
theorem C20_future_events_returned_witness :
    parseLines noFloat 2026 {} [futureLine] =
      Run.ok { store := { Events := [some (MailEvent.qmgr futureRecord)] },
               event := some (MailEvent.qmgr futureRecord) } ∧
    ∃ res, GetRecords (fun _ => queryNow) { Events := [some (MailEvent.qmgr futureRecord)] }
        Second = Run.ok (res, { Events := [some (MailEvent.qmgr futureRecord)] }) ∧
      some (MailEvent.qmgr futureRecord) ∈ res :=
  ⟨by decide, C20_future_events_returned queryNow Second
    { Events := [some (MailEvent.qmgr futureRecord)] } (MailEvent.qmgr futureRecord)
    (by decide) (by decide) (by decide) (by decide)⟩
end Chisel
